import Mathlib

/-!
# FlowBox: a verified model of the lazy deferred-evaluation container

This file embeds the `FlowBox` class of `src/src/FlowBox/FlowBox.ts` (the
canonical, fully documented variant of the repository's Box abstraction)
together with the collection adapter of `src/src/utils/index.ts`
(`toEntries` / `fromEntries`) into Lean, and proves the testable
properties of the specification against that embedding.

Modelling decisions:

* JavaScript values are modelled by the inductive `JSVal`.  Numbers are
  modelled as integers with a separate `nan` constructor (claims only
  exercise integer arithmetic); `Error` instances carry a message string.
* Callbacks and predicate rules are defunctionalized into `JSFunc`, with
  total application `applyFn`.  `applyFn` also counts how many times a
  `spy`-wrapped function is applied; the count is threaded through the
  whole evaluator so that "callback is never invoked" / "fires exactly
  once" properties are stated as count equations.
* A pending asynchronous result is modelled as an already settled
  promise (`JSProm`), with `.then` / `.catch` / `.finally` as pure
  functions that follow the host promise semantics (handler throws
  become rejections, returned promises are adopted).
* A `FlowBox` is a pair of a producer (`JSThunk`) and its configuration
  (the `badValues` list — a list of `JSVal`s, matching the source where
  a rule is either a literal compared with `===` or a predicate
  function).  Combinators of the source all return
  `this._thunkWithConfig(() => ...)`, i.e. a new box whose producer is a
  closure over the previous box; these closures are represented
  syntactically by the `JSThunk` constructors and evaluated by the
  fueled interpreter `evalThunk` whose equations are the translation of
  the closure bodies.
* Strict equality `===`: structural on primitives (`null`, `undefined`,
  numbers, strings, booleans), `NaN === NaN` is `false`; functions
  compare by reference identity (`fnRefEq`: the named top-level utils
  functions are single objects, closures are distinct per occurrence);
  the remaining reference types (objects, arrays, maps, sets, errors,
  boxes, promises) compare as distinct references, hence `false`.
  `SameValueZero` (used by `Set` / `Map` keys) additionally equates
  `NaN` with `NaN`.
* Evaluation is fueled (`Nat` fuel, `none` = out of fuel) because a
  producer chain may evaluate boxes stored inside values, which is not
  structurally decreasing.
-/

mutual

/-- Defunctionalized JavaScript functions: the callbacks and predicate
rules exercised by the specification claims.  `spy` wraps a function
without changing its behaviour but increments the instrumentation
counter on application. -/
inductive JSFunc where
  | idF : JSFunc
  | constF (v : JSVal) : JSFunc
  | addOne : JSFunc
  | isErrorF : JSFunc
  | isNaNF : JSFunc
  | throwF (e : JSVal) : JSFunc
  | spy (f : JSFunc) : JSFunc

/-- JavaScript values, as far as the FlowBox core observes them. -/
inductive JSVal where
  | null : JSVal
  | undef : JSVal
  | nan : JSVal
  | num (n : Int) : JSVal
  | str (s : String) : JSVal
  | bool (b : Bool) : JSVal
  | err (msg : String) : JSVal
  | fn (f : JSFunc) : JSVal
  | arr (xs : List JSVal) : JSVal
  | jmap (es : List (JSVal × JSVal)) : JSVal
  | jset (xs : List JSVal) : JSVal
  | obj (es : List (String × JSVal)) : JSVal
  | box (b : JSBox) : JSVal
  | prom (p : JSProm) : JSVal

/-- A settled pending asynchronous result. -/
inductive JSProm where
  | fulfilled (v : JSVal) : JSProm
  | rejected (e : JSVal) : JSProm

/-- A FlowBox: a producer thunk plus the `badValues` list of its
configuration (the configuration object of the source has this single
field). -/
inductive JSBox where
  | mk (thunk : JSThunk) (badValues : List JSVal) : JSBox

/-- Producer closures.  `pureT v` is the thunk `() => v` built by
`FlowBox.of`; `throwT e` is a user thunk that throws; the remaining
constructors are the closures each combinator passes to
`this._thunkWithConfig`, closing over the source box `src` (the `this`
of the combinator call). -/
inductive JSThunk where
  | pureT (v : JSVal) : JSThunk
  | throwT (e : JSVal) : JSThunk
  | mapT (src : JSBox) (f : JSFunc) : JSThunk
  | filterT (src : JSBox) (p : JSFunc) : JSThunk
  | flatMapT (src : JSBox) (f : JSFunc) : JSThunk
  | flatT (src : JSBox) : JSThunk
  | apT (src : JSBox) (fb : JSVal) : JSThunk
  | traverseT (src : JSBox) (f : JSFunc) : JSThunk
  | sequenceT (src : JSBox) : JSThunk
  | distributeT (src : JSBox) : JSThunk
  | catchT (src : JSBox) (f : JSFunc) : JSThunk
  | recoverT (src : JSBox) (f : JSFunc) : JSThunk

end

/-- Producer of a box (`this._thunk`). -/
def JSBox.thunk : JSBox → JSThunk
  | .mk t _ => t

/-- Configuration of a box (`this.config.badValues`). -/
def JSBox.badValues : JSBox → List JSVal
  | .mk _ c => c

/-- `isError` of the utils module: `e instanceof Error`. -/
def isErrorV : JSVal → Bool
  | .err _ => true
  | _ => false

/-- `Number.isNaN`. -/
def isNaNV : JSVal → Bool
  | .nan => true
  | _ => false

/-- `isPromise` of the utils module: `v instanceof Promise`, returning
the settled payload when it is one. -/
def asProm : JSVal → Option JSProm
  | .prom p => some p
  | _ => none

/-- `FlowBox.isFlowBox`: `v instanceof FlowBox`. -/
def asBox : JSVal → Option JSBox
  | .box b => some b
  | _ => none

/-- `isFunction`, returning the code when the value is a function. -/
def asFn : JSVal → Option JSFunc
  | .fn f => some f
  | _ => none

/-- JavaScript truthiness. -/
def truthy : JSVal → Bool
  | .null => false
  | .undef => false
  | .nan => false
  | .num n => n != 0
  | .str s => s ≠ ""
  | .bool b => b
  | _ => true

/-- Reference identity of function objects.  The named top-level
functions of the utils module (`identity`, `isError`, `Number.isNaN`)
and the sample `x => x + 1` are each a single object, so two
occurrences of the same name denote the same reference; closures
(`constF`, `throwF`, `spy` wrappers) are created per occurrence and are
therefore modelled as distinct references. -/
def fnRefEq : JSFunc → JSFunc → Bool
  | .idF, .idF => true
  | .addOne, .addOne => true
  | .isErrorF, .isErrorF => true
  | .isNaNF, .isNaNF => true
  | _, _ => false

/-- Strict equality `===`.  Primitives compare structurally,
`NaN === NaN` is `false`, functions compare by reference identity
(`fnRefEq`), and the remaining reference types (two syntactically given
objects are distinct references) compare `false`. -/
def strictEq : JSVal → JSVal → Bool
  | .null, .null => true
  | .undef, .undef => true
  | .num a, .num b => a == b
  | .str a, .str b => a == b
  | .bool a, .bool b => a == b
  | .fn a, .fn b => fnRefEq a b
  | _, _ => false

/-- `SameValueZero`, the equivalence used by `Set` membership and `Map`
keys: like `===` but `NaN` equals `NaN`. -/
def svz : JSVal → JSVal → Bool
  | .nan, .nan => true
  | a, b => strictEq a b

/-- `x + 1` for the sample callbacks of the spec; modelled on numbers
(`NaN` propagates, non-numbers produce `NaN`). -/
def jsAddOne : JSVal → JSVal
  | .num n => .num (n + 1)
  | _ => .nan

/-- Total application of a defunctionalized function.  The `Except`
models a thrown exception; the `Nat` counts applications of
`spy`-wrapped functions occurring in this call. -/
def applyFn : JSFunc → JSVal → Except JSVal JSVal × Nat
  | .idF, v => (.ok v, 0)
  | .constF c, _ => (.ok c, 0)
  | .addOne, v => (.ok (jsAddOne v), 0)
  | .isErrorF, v => (.ok (.bool (isErrorV v)), 0)
  | .isNaNF, v => (.ok (.bool (isNaNV v)), 0)
  | .throwF e, _ => (.error e, 0)
  | .spy f, v => let r := applyFn f v; (r.1, r.2 + 1)

/-- The value a callback application produces: its return value, or the
thrown error when it throws (the resolution engine converts such a
throw into an error value carried forward). -/
def appRes (f : JSFunc) (v : JSVal) : JSVal :=
  match applyFn f v with
  | (.ok r, _) => r
  | (.error e, _) => e

/-- `FlowBox.isBadValue(v, badValues)`: `badVals.some(bv => v === bv ||
(isFunction(bv) && bv(v)))`, short-circuiting at the first match.  A
predicate rule may throw; the throw propagates to the caller. -/
def isBadValueC : List JSVal → JSVal → Except JSVal Bool × Nat
  | [], _ => (.ok false, 0)
  | bv :: rest, v =>
    if strictEq v bv then (.ok true, 0)
    else
      match asFn bv with
      | some f =>
        match applyFn f v with
        | (.error e, n) => (.error e, n)
        | (.ok res, n) =>
          if truthy res then (.ok true, n)
          else
            let r := isBadValueC rest v
            (r.1, n + r.2)
      | none => isBadValueC rest v

/-- The default configuration:
`badValues: [null, undefined, isError, Number.isNaN]`. -/
def defaultBadValues : List JSVal :=
  [.null, .undef, .fn .isErrorF, .fn .isNaNF]

/-- The classification the default configuration computes (proved to
agree with `isBadValueC defaultBadValues` below).  Each rule first
matches by `===` — so the rule functions `isError` and `Number.isNaN`
themselves are classified bad by reference equality — and the function
rules additionally match by a truthy predicate result. -/
def isBadDefault (v : JSVal) : Bool :=
  strictEq v .null || strictEq v .undef ||
  strictEq v (.fn .isErrorF) || isErrorV v ||
  strictEq v (.fn .isNaNF) || isNaNV v

/-! ## The collection adapter (`toEntries` / `fromEntries` of utils) -/

/-- The branch discrimination shared by `toEntries` and `fromEntries`:
`null` / `undefined`, plain record (`constructor === Object`), the
`.entries()`-bearing built-ins (array, map, set) and bare scalars
(everything else, including numbers, strings, errors, functions, boxes
and promises, none of which has a function-valued `.entries`). -/
inductive CollKind where
  | kNull : CollKind
  | kUndef : CollKind
  | kObj (es : List (String × JSVal)) : CollKind
  | kArr (xs : List JSVal) : CollKind
  | kMap (es : List (JSVal × JSVal)) : CollKind
  | kSet (xs : List JSVal) : CollKind
  | kScalar : CollKind

def collKind : JSVal → CollKind
  | .null => .kNull
  | .undef => .kUndef
  | .obj es => .kObj es
  | .arr xs => .kArr xs
  | .jmap es => .kMap es
  | .jset xs => .kSet xs
  | _ => .kScalar

/-- `toEntries(collection)`: `[]` for `null`/`undefined`,
`Object.entries` for plain records, `[...collection.entries()]` for
arrays (index/value pairs), maps (key/value pairs) and sets
(value/value pairs, per `Set.prototype.entries`), and the one-element
sequence `[[0, collection]]` for a bare value. -/
def toEntriesV (v : JSVal) : List (JSVal × JSVal) :=
  match collKind v with
  | .kNull => []
  | .kUndef => []
  | .kObj es => es.map (fun kv => (.str kv.1, kv.2))
  | .kArr xs => (xs.enum).map (fun iv => (.num iv.1, iv.2))
  | .kMap es => es
  | .kSet xs => xs.map (fun x => (x, x))
  | .kScalar => [(.num 0, v)]

/-- Insert a value into a set model: `Set.prototype.add` keeps the
first occurrence (SameValueZero). -/
def setInsert (acc : List JSVal) (x : JSVal) : List JSVal :=
  if acc.any (fun y => svz y x) then acc else acc ++ [x]

/-- `new Set(list)`: deduplicate by SameValueZero, keeping first
occurrences in insertion order. -/
def mkSetV (xs : List JSVal) : List JSVal :=
  xs.foldl setInsert []

/-- `map.set(k, v)`: an existing key (SameValueZero) keeps its position
but takes the later value; a new key is appended. -/
def mapInsert (acc : List (JSVal × JSVal)) (kv : JSVal × JSVal) :
    List (JSVal × JSVal) :=
  if acc.any (fun e => svz e.1 kv.1) then
    acc.map (fun e => if svz e.1 kv.1 then (e.1, kv.2) else e)
  else acc ++ [kv]

/-- `new Map(entries)`: later values win, first positions kept. -/
def mkMapV (es : List (JSVal × JSVal)) : List (JSVal × JSVal) :=
  es.foldl mapInsert []

/-- Property-key insertion for `Object.fromEntries`: later values win,
first positions kept. -/
def objInsert (acc : List (String × JSVal)) (kv : String × JSVal) :
    List (String × JSVal) :=
  if acc.any (fun e => e.1 == kv.1) then
    acc.map (fun e => if e.1 == kv.1 then (e.1, kv.2) else e)
  else acc ++ [kv]

/-- `Object.fromEntries(entries)` on the assoc-list record model. -/
def mkObjV (es : List (String × JSVal)) : List (String × JSVal) :=
  es.foldl objInsert []

/-- Coercion of an entry key to a property key, as `Object.fromEntries`
performs.  Keys reaching this point always originate from
`Object.entries`, hence are strings already; the other branches model
`String(key)` for the primitives that could in principle appear. -/
def toPropKey : JSVal → String
  | .str s => s
  | .num n => toString n
  | .bool b => toString b
  | .null => "null"
  | .undef => "undefined"
  | .nan => "NaN"
  | _ => "[object Object]"

/-- `fromEntries(entries, src)`: rebuild the original container kind of
`src` from a transformed entry sequence; a non-collection `src` yields
the bare first entry value (`undefined` when there is none). -/
def fromEntriesV (es : List (JSVal × JSVal)) (src : JSVal) : JSVal :=
  match collKind src with
  | .kNull => .null
  | .kUndef => .undef
  | .kArr _ => .arr (es.map (fun kv => kv.2))
  | .kMap _ => .jmap (mkMapV es)
  | .kSet _ => .jset (mkSetV (es.map (fun kv => kv.2)))
  | .kObj _ => .obj (mkObjV (es.map (fun kv => (toPropKey kv.1, kv.2))))
  | .kScalar =>
    match es with
    | [] => .undef
    | kv :: _ => kv.2

/-! ## The evaluation monad

`EvalM α` is `Option (Except JSVal α × Nat)`: `none` means the fuel ran
out, `Except.error e` models a thrown exception `e`, and the `Nat`
accumulates `spy` application counts. -/

def EvalM (α : Type) : Type := Option (Except JSVal α × Nat)

def pureE {α : Type} (a : α) : EvalM α := some (.ok a, 0)

def throwE {α : Type} (e : JSVal) : EvalM α := some (.error e, 0)

/-- Lift a counted application result into the monad. -/
def liftA (r : Except JSVal JSVal × Nat) : EvalM JSVal := some r

/-- Add instrumentation counts accumulated before `m` ran. -/
def addC {α : Type} (n : Nat) : EvalM α → EvalM α
  | none => none
  | some (r, m) => some (r, n + m)

def bindE {α β : Type} (m : EvalM α) (f : α → EvalM β) : EvalM β :=
  match m with
  | none => none
  | some (.error e, n) => some (.error e, n)
  | some (.ok a, n) => addC n (f a)

/-- `try { m } catch (e) { h e }`. -/
def catchE {α : Type} (m : EvalM α) (h : JSVal → EvalM α) : EvalM α :=
  match m with
  | none => none
  | some (.error e, n) => addC n (h e)
  | some (.ok a, n) => some (.ok a, n)

/-- Promise resolution: a handler returning a promise has that promise
adopted; any other value fulfills. -/
def flattenProm : JSVal → JSProm
  | .prom p => p
  | v => .fulfilled v

/-- `p.then(h)`: the handler runs on fulfillment; a throw inside it
rejects the resulting promise; a rejected `p` passes through. -/
def promThenC (p : JSProm) (h : JSVal → EvalM JSVal) : EvalM JSVal :=
  match p with
  | .rejected e => pureE (.prom (.rejected e))
  | .fulfilled v =>
    match h v with
    | none => none
    | some (.error e, n) => some (.ok (.prom (.rejected e)), n)
    | some (.ok r, n) => some (.ok (.prom (flattenProm r)), n)

/-- `p.catch(h)`: the handler runs on rejection; a fulfilled `p` passes
through. -/
def promCatchC (p : JSProm) (h : JSVal → EvalM JSVal) : EvalM JSVal :=
  match p with
  | .fulfilled v => pureE (.prom (.fulfilled v))
  | .rejected e =>
    match h e with
    | none => none
    | some (.error e2, n) => some (.ok (.prom (.rejected e2)), n)
    | some (.ok r, n) => some (.ok (.prom (flattenProm r)), n)

/-- `FlowBox.resolve(val, onOk, isBadValue)` with the `onError` and
`onBad` defaults (`identity`) every instance combinator uses via
`this._resolve(val, onOk)`: a promise value chains the classification
onto settlement; a synchronous value is classified immediately; any
synchronous throw (from the classifier or from `onOk`) is caught and
returned as a plain value. -/
def resolveC (bad : List JSVal) (val : JSVal) (onOk : JSVal → EvalM JSVal) :
    EvalM JSVal :=
  match asProm val with
  | some p =>
    promThenC p (fun res =>
      match isBadValueC bad res with
      | (.error e, n) => some (.error e, n)
      | (.ok true, n) => addC n (pureE res)
      | (.ok false, n) => addC n (onOk res))
  | none =>
    catchE
      (match isBadValueC bad val with
       | (.error e, n) => some (.error e, n)
       | (.ok true, n) => addC n (pureE val)
       | (.ok false, n) => addC n (onOk val))
      (fun e => pureE e)

/-! ## The traversal pipeline context

`traverse` / `sequence` / `distribute` thread a context object
`{ src, entries }` through `this._resolve`; the context is itself a
JavaScript value (so that, exactly as in the source, each pipeline
stage output is re-examined by the resolution engine).  Entries are
stored as two-element arrays `[key, value]`. -/

def typeErrorV : JSVal := .err "TypeError"

def mkCxt (src : JSVal) (es : List (JSVal × JSVal)) : JSVal :=
  .obj [("src", src), ("entries", .arr (es.map (fun kv => .arr [kv.1, kv.2])))]

/-- Destructuring `[k, v]` of an entry (malformed entries cannot arise
from `mkCxt`). -/
def entPair : JSVal → JSVal × JSVal
  | .arr [k, v] => (k, v)
  | _ => (.undef, .undef)

def parseCxt : JSVal → Option (JSVal × List (JSVal × JSVal))
  | .obj [("src", s), ("entries", .arr es)] => some (s, es.map entPair)
  | _ => none

/-- `cxt => fromEntries(cxt.entries, cxt.src)`. -/
def stageFromF (c : JSVal) : EvalM JSVal :=
  match parseCxt c with
  | some se => pureE (fromEntriesV se.2 se.1)
  | none => throwE typeErrorV

/-- The per-entry body of traverse's apply stage:
`[k, this._resolve(v, v => fn(v, k, cxt.src))]` (the callback is
modelled as unary; the claims' callbacks use only the element
argument). -/
def entsApplyP (cfg : List JSVal) (f : JSFunc) :
    List (JSVal × JSVal) → EvalM (List (JSVal × JSVal))
  | [] => pureE []
  | kv :: rest =>
    bindE (resolveC cfg kv.2 (fun x => liftA (applyFn f x))) (fun v2 =>
      bindE (entsApplyP cfg f rest) (fun rest2 => pureE ((kv.1, v2) :: rest2)))

/-- `cxt => ({...cxt, entries: entries.map(([k,v]) => [k, resolve(v, fn)])})`. -/
def stageApplyF (cfg : List JSVal) (f : JSFunc) (c : JSVal) : EvalM JSVal :=
  match parseCxt c with
  | some se => bindE (entsApplyP cfg f se.2) (fun es2 => pureE (mkCxt se.1 es2))
  | none => throwE typeErrorV

/-- `cxt => ({...cxt, entries: entries.map(([k,v]) =>
[k, isFlowBox(v) ? v : this._ofWithConfig(v)])})` of `distribute`. -/
def stageDistF (cfg : List JSVal) (c : JSVal) : EvalM JSVal :=
  match parseCxt c with
  | some se => pureE (mkCxt se.1 (se.2.map (fun kv =>
      (kv.1,
       match asBox kv.2 with
       | some _ => kv.2
       | none => .box (.mk (.pureT kv.2) cfg)))))
  | none => throwE typeErrorV

/-! ## The producer interpreter

Each `evalThunk` equation is the body of the closure the corresponding
combinator passes to `this._thunkWithConfig`, with `src` playing the
role of the captured `this` (so the configuration consulted is
`src.badValues`, and `this.value` is `evalThunk fuel src.thunk`). -/

mutual

def evalThunk : Nat → JSThunk → EvalM JSVal
  | 0, _ => none
  | fuel+1, t =>
    match t with
    | .pureT v => pureE v
    | .throwT e => throwE e
    | .mapT src f =>
      -- () => this._resolve(this.value, fn)
      bindE (evalThunk fuel src.thunk) (fun val =>
        resolveC src.badValues val (fun v => liftA (applyFn f v)))
    | .filterT src p =>
      -- () => this._resolve(this.value, v => { const bool = predicate(v);
      --   if (isPromise(bool)) return bool.then(res => !!res ? v : null);
      --   return !!bool ? v : null; })
      bindE (evalThunk fuel src.thunk) (fun val =>
        resolveC src.badValues val (fun v =>
          match applyFn p v with
          | (.error e, n) => some (.error e, n)
          | (.ok b, n) =>
            match asProm b with
            | some pb =>
              addC n (promThenC pb (fun res =>
                pureE (if truthy res then v else .null)))
            | none => addC n (pureE (if truthy b then v else .null))))
    | .flatMapT src f =>
      -- () => this._resolve(this.value, v => this._resolve(fn(v), FlowBox._unbox))
      bindE (evalThunk fuel src.thunk) (fun val =>
        resolveC src.badValues val (fun v =>
          match applyFn f v with
          | (.error e, n) => some (.error e, n)
          | (.ok r, n) =>
            addC n (resolveC src.badValues r (fun y => unboxOne fuel y))))
    | .flatT src =>
      -- () => this._resolve(this.value, FlowBox._unbox)
      bindE (evalThunk fuel src.thunk) (fun val =>
        resolveC src.badValues val (fun v => unboxOne fuel v))
    | .apT src fb =>
      -- () => this._resolve(this.value, faResolved => {
      --   if (!isFunction(faResolved)) return faResolved;
      --   return this._resolve(FlowBox._unbox(fb), faResolved); })
      bindE (evalThunk fuel src.thunk) (fun val =>
        resolveC src.badValues val (fun fa =>
          match asFn fa with
          | none => pureE fa
          | some g =>
            bindE (unboxOne fuel fb) (fun vb =>
              resolveC src.badValues vb (fun x => liftA (applyFn g x)))))
    | .traverseT src f =>
      -- () => [unboxDeep, toCxt, unboxEntries, applyEntries, unboxEntries,
      --        fromEntries].reduce((v, func) => this._resolve(v, func), this.value)
      bindE (evalThunk fuel src.thunk) (fun val =>
        bindE (resolveC src.badValues val (fun v => unboxDeep fuel v)) (fun v1 =>
        bindE (resolveC src.badValues v1
          (fun s => pureE (mkCxt s (toEntriesV s)))) (fun v2 =>
        bindE (resolveC src.badValues v2 (fun c => stageUnboxM fuel c)) (fun v3 =>
        bindE (resolveC src.badValues v3 (stageApplyF src.badValues f)) (fun v4 =>
        bindE (resolveC src.badValues v4 (fun c => stageUnboxM fuel c)) (fun v5 =>
        resolveC src.badValues v5 stageFromF))))))
    | .sequenceT src =>
      -- () => [toCxt, unboxEntries, fromEntries].reduce(..., this.value)
      bindE (evalThunk fuel src.thunk) (fun val =>
        bindE (resolveC src.badValues val
          (fun s => pureE (mkCxt s (toEntriesV s)))) (fun v1 =>
        bindE (resolveC src.badValues v1 (fun c => stageUnboxM fuel c)) (fun v2 =>
        resolveC src.badValues v2 stageFromF)))
    | .distributeT src =>
      -- () => [toCxt, packEntries, fromEntries].reduce(..., this.value)
      bindE (evalThunk fuel src.thunk) (fun val =>
        bindE (resolveC src.badValues val
          (fun s => pureE (mkCxt s (toEntriesV s)))) (fun v1 =>
        bindE (resolveC src.badValues v1 (stageDistF src.badValues)) (fun v2 =>
        resolveC src.badValues v2 stageFromF)))
    | .catchT src f =>
      -- () => { try { const val = this.value;
      --   if (isPromise(val)) return val.then(v => isError(v) ? fn(v) : v).catch(fn);
      --   return isError(val) ? fn(val) : val; } catch (err) { return fn(err); } }
      catchE
        (bindE (evalThunk fuel src.thunk) (fun val =>
          match asProm val with
          | some p =>
            bindE (promThenC p (fun v =>
              if isErrorV v then liftA (applyFn f v) else pureE v)) (fun pv =>
              match asProm pv with
              | some p2 => promCatchC p2 (fun e => liftA (applyFn f e))
              | none => pureE pv)
          | none =>
            if isErrorV val then liftA (applyFn f val) else pureE val))
        (fun e => liftA (applyFn f e))
    | .recoverT src f =>
      -- () => { try { const val = this.value;
      --   if (isPromise(val)) return val.then(res => this._isBadValue(res) ? fn(res) : res).catch(fn);
      --   if (this._isBadValue(val)) return fn(val);
      --   return val; } catch (err) { return fn(err); } }
      catchE
        (bindE (evalThunk fuel src.thunk) (fun val =>
          match asProm val with
          | some p =>
            bindE (promThenC p (fun v =>
              match isBadValueC src.badValues v with
              | (.error e, n) => some (.error e, n)
              | (.ok true, n) => addC n (liftA (applyFn f v))
              | (.ok false, n) => addC n (pureE v))) (fun pv =>
              match asProm pv with
              | some p2 => promCatchC p2 (fun e => liftA (applyFn f e))
              | none => pureE pv)
          | none =>
            match isBadValueC src.badValues val with
            | (.error e, n) => some (.error e, n)
            | (.ok true, n) => addC n (liftA (applyFn f val))
            | (.ok false, n) => addC n (pureE val)))
        (fun e => liftA (applyFn f e))

/-- `FlowBox._unbox`: one level. -/
def unboxOne : Nat → JSVal → EvalM JSVal
  | 0, _ => none
  | fuel+1, v =>
    match asBox v with
    | some b => evalThunk fuel b.thunk
    | none =>
      match asProm v with
      | some p => promThenC p (fun x => unboxOne fuel x)
      | none => pureE v

/-- `FlowBox._unboxDeep`: recursively unwrap boxes and promises. -/
def unboxDeep : Nat → JSVal → EvalM JSVal
  | 0, _ => none
  | fuel+1, v =>
    match asBox v with
    | some b => bindE (evalThunk fuel b.thunk) (fun x => unboxDeep fuel x)
    | none =>
      match asProm v with
      | some p => promThenC p (fun x => unboxDeep fuel x)
      | none => pureE v

/-- Entry-wise `[k, v] => [k, FlowBox._unboxDeep(v)]`. -/
def entsUnboxP : Nat → List (JSVal × JSVal) → EvalM (List (JSVal × JSVal))
  | 0, _ => none
  | _+1, [] => pureE []
  | fuel+1, kv :: rest =>
    bindE (unboxDeep fuel kv.2) (fun v2 =>
      bindE (entsUnboxP fuel rest) (fun rest2 => pureE ((kv.1, v2) :: rest2)))

/-- `cxt => ({...cxt, entries: entries.map(([k,v]) => [k, unboxDeep v])})`. -/
def stageUnboxM : Nat → JSVal → EvalM JSVal
  | 0, _ => none
  | fuel+1, c =>
    match parseCxt c with
    | some se =>
      bindE (entsUnboxP fuel se.2) (fun es2 => pureE (mkCxt se.1 es2))
    | none => throwE typeErrorV

end

/-! ## Runners and constructors -/

/-- `this.value`: invoke the producer. -/
def evalBox (fuel : Nat) (b : JSBox) : EvalM JSVal := evalThunk fuel b.thunk

/-- `run()`: `try { const val = this.value; if (isPromise(val)) return
val.catch(identity); return val; } catch (err) { return err; }`. -/
def runBox (fuel : Nat) (b : JSBox) : EvalM JSVal :=
  match evalThunk fuel b.thunk with
  | none => none
  | some (.error e, n) => some (.ok e, n)
  | some (.ok v, n) =>
    match asProm v with
    | some p => addC n (promCatchC p (fun e => pureE e))
    | none => some (.ok v, n)

/-- The value view of `run()` (instrumentation counts dropped). -/
def runV (fuel : Nat) (b : JSBox) : Option (Except JSVal JSVal) :=
  (runBox fuel b).map Prod.fst

/-- `unwrap()`: `const val = this.value; if (isError(val)) throw val;
return val;` — no catch around the producer. -/
def unwrapBox (fuel : Nat) (b : JSBox) : EvalM JSVal :=
  bindE (evalThunk fuel b.thunk) (fun v =>
    if isErrorV v then throwE v else pureE v)

/-- The `finally` block of `fold`'s synchronous path: when an
`onFinally` function is provided it runs once after the result (even a
rethrown error) is computed; a throw from it replaces the result. -/
def finSeq (fin : Option JSFunc) (m : EvalM JSVal) : EvalM JSVal :=
  match m with
  | none => none
  | some (res, n) =>
    match fin with
    | none => some (res, n)
    | some f =>
      match applyFn f .undef with
      | (.error e2, k) => some (.error e2, n + k)
      | (.ok _, k) => some (res, n + k)

/-- `.finally(...)` on the promise chain of `fold`: the guarded
`onFinally` call runs once after settlement; its throw rejects. -/
def promFin (fin : Option JSFunc) (m : EvalM JSVal) : EvalM JSVal :=
  bindE m (fun pv =>
    match asProm pv with
    | some p =>
      match fin with
      | none => pureE (.prom p)
      | some f =>
        match applyFn f .undef with
        | (.error e2, k) => addC k (pureE (.prom (.rejected e2)))
        | (.ok _, k) => addC k (pureE (.prom p))
    | none => pureE pv)

/-- The three-way classification body shared by `fold`'s synchronous
path and its promise `.then` handler: `if (isError(v)) return
onError(v); if (this._isBadValue(v)) return onNothing(v); return
onOk(v);`. -/
def foldSyncBranch (cfg : List JSVal) (onE onN onS : JSFunc) (val : JSVal) :
    EvalM JSVal :=
  if isErrorV val then liftA (applyFn onE val)
  else
    match isBadValueC cfg val with
    | (.error e, n) => some (.error e, n)
    | (.ok true, n) => addC n (liftA (applyFn onN val))
    | (.ok false, n) => addC n (liftA (applyFn onS val))

/-- `fold(onError, onNothing, onOk, onFinally?)` of the source: the
promise path chains `.then(classify).catch(onError).finally(guarded
onFinally)`; the synchronous path classifies inside the `try`, the
`catch` routes any synchronous throw to `onError`, and the `finally`
block runs the guarded `onFinally` only when the evaluated value was
not a promise (including the case where the producer threw and `val`
was never assigned). -/
def foldBox (fuel : Nat) (b : JSBox) (onE onN onS : JSFunc)
    (fin : Option JSFunc) : EvalM JSVal :=
  match evalThunk fuel b.thunk with
  | none => none
  | some (.error err, n) =>
    addC n (finSeq fin (liftA (applyFn onE err)))
  | some (.ok val, n) =>
    match asProm val with
    | some p =>
      addC n (promFin fin
        (bindE (promThenC p (fun v => foldSyncBranch b.badValues onE onN onS v))
          (fun pv =>
            match asProm pv with
            | some p2 => promCatchC p2 (fun e => liftA (applyFn onE e))
            | none => pureE pv)))
    | none =>
      addC n (finSeq fin
        (catchE (foldSyncBranch b.badValues onE onN onS val)
          (fun e2 => liftA (applyFn onE e2))))

/-- `FlowBox.of(v, c)`. -/
def ofB (v : JSVal) (cfg : List JSVal) : JSBox := .mk (.pureT v) cfg

/-- `FlowBox.thunk(t, c)`. -/
def thunkB (t : JSThunk) (cfg : List JSVal) : JSBox := .mk t cfg

/-- `map(fn)`: `this._thunkWithConfig(() => this._resolve(this.value, fn))`. -/
def mapB (b : JSBox) (f : JSFunc) : JSBox := .mk (.mapT b f) b.badValues

def filterB (b : JSBox) (p : JSFunc) : JSBox := .mk (.filterT b p) b.badValues

def flatMapB (b : JSBox) (f : JSFunc) : JSBox := .mk (.flatMapT b f) b.badValues

def flatB (b : JSBox) : JSBox := .mk (.flatT b) b.badValues

def apB (b : JSBox) (fb : JSVal) : JSBox := .mk (.apT b fb) b.badValues

def traverseB (b : JSBox) (f : JSFunc) : JSBox := .mk (.traverseT b f) b.badValues

def sequenceB (b : JSBox) : JSBox := .mk (.sequenceT b) b.badValues

def distributeB (b : JSBox) : JSBox := .mk (.distributeT b) b.badValues

def catchB (b : JSBox) (f : JSFunc) : JSBox := .mk (.catchT b f) b.badValues

def recoverB (b : JSBox) (f : JSFunc) : JSBox := .mk (.recoverT b f) b.badValues

/-- `withConfig(newConfig)`: `FlowBox.thunk(this._thunk, {...this.config,
...newConfig})` — the same producer, merged configuration. -/
def withConfigB (b : JSBox) (newBad : Option (List JSVal)) : JSBox :=
  .mk b.thunk (match newBad with | some bv => bv | none => b.badValues)

/-- `restoreDefaults()`: `FlowBox.thunk(this._thunk, FlowBox._defaultConfig)`. -/
def restoreDefaultsB (b : JSBox) : JSBox := .mk b.thunk defaultBadValues

/-! ## Basic lemmas about the evaluation monad and classifier -/

theorem addC_zero {α : Type} (m : EvalM α) : addC 0 m = m := by
  cases m with
  | none => rfl
  | some r => cases r with | mk a n => simp [addC]

theorem addC_addC {α : Type} (n k : Nat) (m : EvalM α) :
    addC n (addC k m) = addC (n + k) m := by
  cases m with
  | none => rfl
  | some r =>
    cases r with | mk a j => simp [addC, Nat.add_assoc]

theorem bindE_pure {α β : Type} (a : α) (f : α → EvalM β) :
    bindE (pureE a) f = f a := by
  simp [bindE, pureE, addC_zero]

theorem bindE_throw {α β : Type} (e : JSVal) (f : α → EvalM β) :
    bindE (throwE e) f = throwE e := by
  simp [bindE, throwE]

theorem catchE_pure {α : Type} (a : α) (h : JSVal → EvalM α) :
    catchE (pureE a) h = pureE a := by
  simp [catchE, pureE]

theorem catchE_throw {α : Type} (e : JSVal) (h : JSVal → EvalM α) :
    catchE (throwE e) h = h e := by
  simp [catchE, throwE, addC_zero]

theorem catchE_addC {α : Type} (n : Nat) (m : EvalM α) (h : JSVal → EvalM α) :
    catchE (addC n m) h = addC n (catchE m h) := by
  cases m with
  | none => rfl
  | some r =>
    cases r with
    | mk a j =>
      cases a with
      | error e =>
        simp only [addC, catchE]
        cases he : h e with
        | none => rfl
        | some r2 => cases r2 with | mk a2 j2 => simp [Nat.add_assoc]
      | ok v => simp [addC, catchE]

theorem bindE_addC {α β : Type} (n : Nat) (m : EvalM α) (f : α → EvalM β) :
    bindE (addC n m) f = addC n (bindE m f) := by
  cases m with
  | none => rfl
  | some r =>
    cases r with
    | mk a j =>
      cases a with
      | error e => simp [addC, bindE]
      | ok v =>
        simp only [addC, bindE]
        cases hv : f v with
        | none => rfl
        | some r2 => cases r2 with | mk a2 j2 => simp [Nat.add_assoc]

/-- The default rules never throw, never touch the spy counter, and
compute exactly `isBadDefault`. -/
theorem isBadValueC_default (v : JSVal) :
    isBadValueC defaultBadValues v = (.ok (isBadDefault v), 0) := by
  cases v <;> try rfl
  next f => cases f <;> rfl

theorem isBadDefault_not_prom {v : JSVal} (h : isBadDefault v = true) :
    asProm v = none := by
  cases v <;> simp_all [isBadDefault, asProm, strictEq, isErrorV, isNaNV]

theorem isBadDefault_not_box {v : JSVal} (h : isBadDefault v = true) :
    asBox v = none := by
  cases v <;> simp_all [isBadDefault, asBox, strictEq, isErrorV, isNaNV]

/-! ## Characterization of the resolution engine -/

/-- Synchronous non-bad value: the engine invokes `onOk` immediately,
returning its result, with a thrown exception converted into a plain
error value by the identity `onError`. -/
theorem resolveC_sync_good {cfg : List JSVal} {v : JSVal} {n : Nat}
    (onOk : JSVal → EvalM JSVal)
    (hp : asProm v = none) (hb : isBadValueC cfg v = (.ok false, n)) :
    resolveC cfg v onOk = addC n (catchE (onOk v) (fun e => pureE e)) := by
  simp [resolveC, hp, hb, catchE_addC]

/-- Synchronous bad value: the engine skips `onOk` and returns the bad
value unchanged (identity `onBad`). -/
theorem resolveC_sync_bad {cfg : List JSVal} {v : JSVal} {n : Nat}
    (onOk : JSVal → EvalM JSVal)
    (hp : asProm v = none) (hb : isBadValueC cfg v = (.ok true, n)) :
    resolveC cfg v onOk = some (.ok v, n) := by
  simp [resolveC, hp, hb, catchE_addC, catchE, addC, pureE]

/-! ## Claim C2 -/

/-- Claim C2: for every value `v` that does not match any bad-value rule
of the active configuration (and is synchronously available, i.e. not a
pending result) and every callback `f`, `Box.of(v).map(f).run()` equals
`f(v)`: map invokes the callback immediately and the runner returns its
result. -/
theorem map_applies_on_good_value (v : JSVal) (cfg : List JSVal) (f : JSFunc)
    (r : JSVal) (fuel n m : Nat)
    (hp : asProm v = none) (hb : isBadValueC cfg v = (.ok false, n))
    (hf : applyFn f v = (.ok r, m)) (hr : asProm r = none) :
    runV (fuel + 2) (mapB (ofB v cfg) f) = some (.ok r) := by
  have hres := @resolveC_sync_good cfg v _
    (fun x => liftA (applyFn f x)) hp hb
  simp only [runV, runBox, mapB, ofB, JSBox.thunk, JSBox.badValues, evalThunk,
    bindE_pure]
  rw [hres]
  simp [liftA, hf, catchE, addC, hr]

/-- Witness for C2 at `v = 5`, `f = x => x + 1`. -/
theorem map_applies_on_good_value_witness :
    runV (8 + 2) (mapB (ofB (.num 5) defaultBadValues) .addOne)
      = some (.ok (.num 6)) :=
  map_applies_on_good_value (.num 5) defaultBadValues .addOne (.num 6) 8 0 0
    (by rfl) (by rfl) (by rfl) (by rfl)

/-! ## Claim C3 -/

/-- Claim C3: for every value `b` classified as bad by the default
configuration (`null`, `undefined`, `NaN`, or an `Error` instance) and
every callback `f`, `Box.of(b).map(f).run()` returns `b` unchanged and
`f` is never invoked: the callback is instrumented with `spy` and the
final instrumentation count is `0`. -/
theorem map_skips_bad_value (b : JSVal) (f : JSFunc) (fuel : Nat)
    (hb : isBadDefault b = true) :
    runBox (fuel + 2) (mapB (ofB b defaultBadValues) (.spy f)) =
      some (.ok b, 0) := by
  have hp := isBadDefault_not_prom hb
  have hbad : isBadValueC defaultBadValues b = (.ok true, 0) := by
    rw [isBadValueC_default, hb]
  have hres := @resolveC_sync_bad defaultBadValues b _
    (fun x => liftA (applyFn (.spy f) x)) hp hbad
  simp [runBox, mapB, ofB, JSBox.thunk, JSBox.badValues, evalThunk,
        bindE_pure, hres, hp]

/-- Witness for C3 at `b = null`. -/
theorem map_skips_bad_value_witness :
    runBox (8 + 2) (mapB (ofB .null defaultBadValues) (.spy .idF)) =
      some (.ok .null, 0) :=
  map_skips_bad_value .null .idF 8 (by rfl)

/-! ## Claim C6 -/

/-- Claim C6: `unwrap()` evaluates the producer chain and, when the
resolved value is an error, throws exactly that error value; for a
non-error resolved value (including bad values such as `null`) it
returns the value unchanged.  `run()` on the same producer chain never
throws: it returns `none` only on fuel exhaustion and otherwise always
an `ok` result, returning a caught producer throw as a plain value. -/
theorem unwrap_throws_run_never_throws :
    (∀ (fuel : Nat) (b : JSBox) (v : JSVal) (n : Nat),
       evalBox fuel b = some (.ok v, n) → isErrorV v = true →
       unwrapBox fuel b = some (.error v, n)) ∧
    (∀ (fuel : Nat) (b : JSBox) (v : JSVal) (n : Nat),
       evalBox fuel b = some (.ok v, n) → isErrorV v = false →
       unwrapBox fuel b = some (.ok v, n)) ∧
    (∀ (fuel : Nat) (b : JSBox) (e : JSVal) (n : Nat),
       evalBox fuel b = some (.error e, n) → runBox fuel b = some (.ok e, n)) ∧
    (∀ (fuel : Nat) (b : JSBox),
       runBox fuel b = none ∨ ∃ v n, runBox fuel b = some (.ok v, n)) := by
  refine ⟨?_, ?_, ?_, ?_⟩
  · intro fuel b v n h hE
    simp [unwrapBox, evalBox] at h ⊢
    simp [h, bindE, hE, throwE, addC]
  · intro fuel b v n h hE
    simp [unwrapBox, evalBox] at h ⊢
    simp [h, bindE, hE, pureE, addC]
  · intro fuel b e n h
    simp [evalBox] at h
    simp [runBox, h]
  · intro fuel b
    cases h : evalThunk fuel b.thunk with
    | none => left; simp [runBox, h]
    | some r =>
      cases r with
      | mk res n =>
        cases res with
        | error e => right; exact ⟨e, n, by simp [runBox, h]⟩
        | ok v =>
          right
          cases hv : asProm v with
          | none => exact ⟨v, n, by simp [runBox, h, hv]⟩
          | some p =>
            cases p with
            | fulfilled w =>
              exact ⟨.prom (.fulfilled w), n,
                by simp [runBox, h, hv, promCatchC, pureE, addC]⟩
            | rejected e =>
              exact ⟨.prom (flattenProm e), n,
                by simp [runBox, h, hv, promCatchC, pureE, addC]⟩

/-- Witness for C6: unwrap throws the exact error of an error-valued
box, returns `null` unchanged, and run returns a thrown error as a
plain value. -/
theorem unwrap_throws_run_never_throws_witness :
    unwrapBox 1 (ofB (.err "boom") defaultBadValues) =
        some (.error (.err "boom"), 0) ∧
    unwrapBox 1 (ofB .null defaultBadValues) = some (.ok .null, 0) ∧
    runBox 1 (thunkB (.throwT (.err "boom")) defaultBadValues) =
        some (.ok (.err "boom"), 0) :=
  ⟨unwrap_throws_run_never_throws.1 1 (ofB (.err "boom") defaultBadValues)
      (.err "boom") 0 (by rfl) (by rfl),
   unwrap_throws_run_never_throws.2.1 1 (ofB .null defaultBadValues)
      .null 0 (by rfl) (by rfl),
   unwrap_throws_run_never_throws.2.2.1 1
      (thunkB (.throwT (.err "boom")) defaultBadValues) (.err "boom") 0 (by rfl)⟩

/-! ## Claim C7 -/

/-- The matching relation exactly as claim C7 words it: a non-function
rule matches exactly when strictly equal to the value; a function rule
matches exactly when invoking it with the value yields a truthy
result. -/
def ruleMatches (r : JSVal) (v : JSVal) : Bool :=
  match asFn r with
  | some f => truthy (appRes f v)
  | none => strictEq v r

/-- The matching check the source performs per rule
(`FlowBox.isBadValue`): `v === bv || (isFunction(bv) && bv(v))` — every
rule, function rules included, first matches by strict (reference)
equality. -/
def ruleMatchesCode (r : JSVal) (v : JSVal) : Bool :=
  strictEq v r ||
    (match asFn r with
     | some f => truthy (appRes f v)
     | none => false)

/-- Counterexample to C7 as stated: when the tested value is itself one
of the default rule functions (here the `isError` predicate), the
classifier reports it bad through the `v === bv` reference-equality
check, although invoking every rule with it is falsy — so "a function
rule matches exactly when invoking it with the value yields a truthy
result" is false of the code. -/
theorem isBadValue_function_rule_reference_match :
    isBadValueC defaultBadValues (.fn .isErrorF) = (.ok true, 0) ∧
    defaultBadValues.any (fun r => ruleMatches r (.fn .isErrorF)) = false :=
  ⟨rfl, rfl⟩

/-- Claim C7 (amended): `isBadValue(value, rules)` returns false on the
empty rule list; on a rule list whose function rules return (do not
throw) it returns true iff some rule matches, where every rule —
function rules included — matches when it is strictly equal (reference
equality) to the value, and a function rule additionally matches when
invoking it with the value yields a truthy result; evaluation
short-circuits at the first matching rule — rules listed after a match
are irrelevant to the outcome. -/
theorem isBadValue_matches_rules :
    (∀ v, isBadValueC [] v = (.ok false, 0)) ∧
    (∀ (rules : List JSVal) (v : JSVal),
       (∀ r ∈ rules, ∀ f, asFn r = some f →
          ∃ res k, applyFn f v = (.ok res, k)) →
       ∃ n, isBadValueC rules v =
          (.ok (rules.any (fun r => ruleMatchesCode r v)), n)) ∧
    (∀ (pre : List JSVal) (r : JSVal) (rest : List JSVal) (v : JSVal),
       (∀ f, asFn r = some f → ∃ res k, applyFn f v = (.ok res, k)) →
       ruleMatchesCode r v = true →
       isBadValueC (pre ++ r :: rest) v = isBadValueC (pre ++ [r]) v) := by
  refine ⟨fun v => rfl, ?_, ?_⟩
  · intro rules v hnt
    induction rules with
    | nil => exact ⟨0, rfl⟩
    | cons r rest ih =>
      obtain ⟨n', ih'⟩ := ih (fun p hp => hnt p (List.mem_cons_of_mem r hp))
      by_cases hse : strictEq v r = true
      · refine ⟨0, ?_⟩
        simp [isBadValueC, hse, List.any_cons, ruleMatchesCode]
      · cases hfn : asFn r with
        | none =>
          refine ⟨n', ?_⟩
          simp only [Bool.not_eq_true] at hse
          simp [isBadValueC, hse, hfn, List.any_cons, ruleMatchesCode, ih']
        | some f =>
          obtain ⟨res, k, happ⟩ := hnt r (List.mem_cons_self r rest) f hfn
          by_cases htr : truthy res = true
          · refine ⟨k, ?_⟩
            simp [isBadValueC, hse, hfn, happ, htr, List.any_cons,
                  ruleMatchesCode, appRes]
          · refine ⟨k + n', ?_⟩
            simp only [Bool.not_eq_true] at htr hse
            simp [isBadValueC, hse, hfn, happ, htr, List.any_cons,
                  ruleMatchesCode, appRes, ih']
  · intro pre r rest v hnt hm
    induction pre with
    | nil =>
      by_cases hse : strictEq v r = true
      · simp [isBadValueC, hse]
      · cases hfn : asFn r with
        | none =>
          exfalso
          simp only [Bool.not_eq_true] at hse
          simp [ruleMatchesCode, hse, hfn] at hm
        | some f =>
          obtain ⟨res, k, happ⟩ := hnt f hfn
          simp only [Bool.not_eq_true] at hse
          have htr : truthy res = true := by
            simpa [ruleMatchesCode, hse, hfn, appRes, happ] using hm
          simp [isBadValueC, hse, hfn, happ, htr]
    | cons p pre2 ih =>
      by_cases hse : strictEq v p = true
      · simp [isBadValueC, hse]
      · simp only [Bool.not_eq_true] at hse
        cases hfn : asFn p with
        | none => simpa [isBadValueC, hse, hfn] using ih
        | some f =>
          cases happ : applyFn f v with
          | mk res k =>
            cases res with
            | error e => simp [isBadValueC, hse, hfn, happ]
            | ok w =>
              by_cases htr : truthy w = true
              · simp [isBadValueC, hse, hfn, happ, htr]
              · simp only [Bool.not_eq_true] at htr
                simp [isBadValueC, hse, hfn, happ, htr, ih]

/-- Witness for the amended C7: the default rule list classifies the
`isError` function itself as bad (by the reference-equality part of the
match), and rules listed after the first match do not change the
outcome. -/
theorem isBadValue_matches_rules_witness :
    (∃ n, isBadValueC defaultBadValues (.fn .isErrorF) =
       (.ok (defaultBadValues.any
          (fun r => ruleMatchesCode r (.fn .isErrorF))), n)) ∧
    isBadValueC ([.null] ++ .undef :: [.num 3]) .undef =
      isBadValueC ([.null] ++ [.undef]) .undef :=
  ⟨isBadValue_matches_rules.2.1 defaultBadValues (.fn .isErrorF)
     (by
        intro r hr f hf
        fin_cases hr
        · cases hf
        · cases hf
        · simp only [asFn, Option.some.injEq] at hf
          subst hf
          exact ⟨.bool false, 0, rfl⟩
        · simp only [asFn, Option.some.injEq] at hf
          subst hf
          exact ⟨.bool false, 0, rfl⟩),
   isBadValue_matches_rules.2.2 [.null] .undef [.num 3] .undef
     (by intro f hf; cases hf) (by rfl)⟩

/-! ## Claim C4 -/

theorem flattenProm_not_prom {r : JSVal} (hr : asProm r = none) :
    flattenProm r = .fulfilled r := by
  cases r <;> simp_all [asProm, flattenProm]

/-- Claim C4: `recover(fn)` invokes `fn` on every resolved value the
configuration classifies as bad — including error values, synchronous
producer throws and asynchronous rejections — and passes non-bad values
through untouched; `catch(fn)` invokes `fn` on error values, producer
throws and rejections, but on a non-error value (bad or not, e.g.
`null`) it leaves the value unchanged without invoking `fn` (spy count
stays at the producer's count).  Hence the trigger set of `catch` is
strictly narrower than that of `recover`. -/
theorem recover_any_bad_catch_only_errors :
    (∀ (fuel : Nat) (src : JSBox) (v r : JSVal) (nv nb m : Nat) (f : JSFunc),
       evalBox fuel src = some (.ok v, nv) → asProm v = none →
       isBadValueC src.badValues v = (.ok true, nb) →
       applyFn f v = (.ok r, m) → asProm r = none →
       runV (fuel + 1) (recoverB src f) = some (.ok r)) ∧
    (∀ (fuel : Nat) (src : JSBox) (v : JSVal) (nv nb : Nat) (f : JSFunc),
       evalBox fuel src = some (.ok v, nv) → asProm v = none →
       isBadValueC src.badValues v = (.ok false, nb) →
       runBox (fuel + 1) (recoverB src (.spy f)) = some (.ok v, nv + nb)) ∧
    (∀ (fuel : Nat) (src : JSBox) (v r : JSVal) (nv m : Nat) (f : JSFunc),
       evalBox fuel src = some (.ok v, nv) → asProm v = none →
       isErrorV v = true → applyFn f v = (.ok r, m) → asProm r = none →
       runV (fuel + 1) (catchB src f) = some (.ok r)) ∧
    (∀ (fuel : Nat) (src : JSBox) (v : JSVal) (nv : Nat) (f : JSFunc),
       evalBox fuel src = some (.ok v, nv) → asProm v = none →
       isErrorV v = false →
       runBox (fuel + 1) (catchB src (.spy f)) = some (.ok v, nv)) ∧
    (∀ (fuel : Nat) (src : JSBox) (e r : JSVal) (nv m : Nat) (f : JSFunc),
       evalBox fuel src = some (.error e, nv) →
       applyFn f e = (.ok r, m) → asProm r = none →
       runV (fuel + 1) (catchB src f) = some (.ok r) ∧
       runV (fuel + 1) (recoverB src f) = some (.ok r)) ∧
    (∀ (fuel : Nat) (src : JSBox) (e r : JSVal) (nv m : Nat) (f : JSFunc),
       evalBox fuel src = some (.ok (.prom (.rejected e)), nv) →
       applyFn f e = (.ok r, m) → asProm r = none →
       runV (fuel + 1) (catchB src f) = some (.ok (.prom (.fulfilled r))) ∧
       runV (fuel + 1) (recoverB src f) =
         some (.ok (.prom (.fulfilled r)))) := by
  refine ⟨?_, ?_, ?_, ?_, ?_, ?_⟩
  · intro fuel src v r nv nb m f h hp hb hf hr
    obtain ⟨t, cfg⟩ := src
    simp [evalBox, JSBox.thunk] at h
    simp [JSBox.badValues] at hb
    simp [runV, runBox, recoverB, JSBox.thunk, JSBox.badValues, evalThunk,
          h, bindE, hp, hb, liftA, hf, catchE, addC, hr]
  · intro fuel src v nv nb f h hp hb
    obtain ⟨t, cfg⟩ := src
    simp [evalBox, JSBox.thunk] at h
    simp [JSBox.badValues] at hb
    simp [runBox, recoverB, JSBox.thunk, JSBox.badValues, evalThunk,
          h, bindE, hp, hb, pureE, catchE, addC, Nat.add_assoc]
  · intro fuel src v r nv m f h hp hE hf hr
    obtain ⟨t, cfg⟩ := src
    simp [evalBox, JSBox.thunk] at h
    simp [runV, runBox, catchB, JSBox.thunk, evalThunk,
          h, bindE, hp, hE, liftA, hf, catchE, addC, hr]
  · intro fuel src v nv f h hp hE
    obtain ⟨t, cfg⟩ := src
    simp [evalBox, JSBox.thunk] at h
    simp [runBox, catchB, JSBox.thunk, evalThunk,
          h, bindE, hp, hE, pureE, catchE, addC]
  · intro fuel src e r nv m f h hf hr
    obtain ⟨t, cfg⟩ := src
    simp [evalBox, JSBox.thunk] at h
    constructor
    · simp [runV, runBox, catchB, JSBox.thunk, evalThunk,
            h, bindE, liftA, hf, catchE, addC, hr]
    · simp [runV, runBox, recoverB, JSBox.thunk, JSBox.badValues, evalThunk,
            h, bindE, liftA, hf, catchE, addC, hr]
  · intro fuel src e r nv m f h hf hr
    obtain ⟨t, cfg⟩ := src
    simp [evalBox, JSBox.thunk] at h
    have hfl := flattenProm_not_prom hr
    constructor
    · simp [runV, runBox, catchB, JSBox.thunk, evalThunk, h, bindE,
            asProm, promThenC, promCatchC, pureE, liftA, hf, hfl,
            catchE, addC]
    · simp [runV, runBox, recoverB, JSBox.thunk, JSBox.badValues, evalThunk,
            h, bindE, asProm, promThenC, promCatchC, pureE, liftA, hf, hfl,
            catchE, addC]

/-- Witness for C4: on `null` (a non-error bad value) recover fires and
catch does not; on an error value catch fires. -/
theorem recover_any_bad_catch_only_errors_witness :
    runV (1 + 1) (recoverB (ofB .null defaultBadValues) (.constF (.str "r")))
      = some (.ok (.str "r")) ∧
    runBox (1 + 1) (catchB (ofB .null defaultBadValues) (.spy .idF)) =
      some (.ok .null, 0) ∧
    runV (1 + 1) (catchB (ofB (.err "x") defaultBadValues) (.constF (.str "c")))
      = some (.ok (.str "c")) :=
  ⟨recover_any_bad_catch_only_errors.1 1 (ofB .null defaultBadValues)
      .null (.str "r") 0 0 0 (.constF (.str "r"))
      (by rfl) (by rfl) (by rfl) (by rfl) (by rfl),
   recover_any_bad_catch_only_errors.2.2.2.1 1 (ofB .null defaultBadValues)
      .null 0 .idF (by rfl) (by rfl) (by rfl),
   recover_any_bad_catch_only_errors.2.2.1 1 (ofB (.err "x") defaultBadValues)
      (.err "x") (.str "c") 0 0 (.constF (.str "c"))
      (by rfl) (by rfl) (by rfl) (by rfl) (by rfl)⟩

/-! ## Claim C8 -/

/-- Claim C8: `ap` applies a boxed function to a boxed value.  When this
box resolves to a function and the argument resolves to a non-bad
value, the result is the function applied to that value — in the
synchronous case and when either side or both sides are pending
results (final four conjuncts: both pending, function side pending,
argument side pending).  When this box's resolved value is bad —
synchronously or through a pending result — that value is returned and
the argument is never even evaluated (the conclusion holds for every
argument `fb`).  When the argument resolves to a bad value —
synchronously or through a pending result — that bad value is returned
and the boxed function is never invoked (spy count 0).  When this box's
resolved value is not a function, that value is returned unchanged for
every argument. -/
theorem ap_applies_boxed_function :
    (∀ (fuel : Nat) (src : JSBox) (fb : JSVal) (fa vb r : JSVal) (g : JSFunc)
       (nv na nb nc m : Nat),
       evalBox fuel src = some (.ok fa, nv) → asProm fa = none →
       isBadValueC src.badValues fa = (.ok false, na) → asFn fa = some g →
       unboxOne fuel fb = some (.ok vb, nb) → asProm vb = none →
       isBadValueC src.badValues vb = (.ok false, nc) →
       applyFn g vb = (.ok r, m) → asProm r = none →
       runV (fuel + 1) (apB src fb) = some (.ok r)) ∧
    (∀ (fuel : Nat) (src : JSBox) (fb : JSVal) (bv : JSVal) (nv nb : Nat),
       evalBox fuel src = some (.ok bv, nv) → asProm bv = none →
       isBadValueC src.badValues bv = (.ok true, nb) →
       runBox (fuel + 1) (apB src fb) = some (.ok bv, nv + nb)) ∧
    (∀ (fuel : Nat) (src : JSBox) (fb : JSVal) (vb : JSVal) (g : JSFunc),
       evalBox fuel src = some (.ok (.fn (.spy g)), 0) →
       isBadValueC src.badValues (.fn (.spy g)) = (.ok false, 0) →
       unboxOne fuel fb = some (.ok vb, 0) → asProm vb = none →
       isBadValueC src.badValues vb = (.ok true, 0) →
       runBox (fuel + 1) (apB src fb) = some (.ok vb, 0)) ∧
    (∀ (fuel : Nat) (src : JSBox) (fb : JSVal) (fa : JSVal) (nv na : Nat),
       evalBox fuel src = some (.ok fa, nv) → asProm fa = none →
       isBadValueC src.badValues fa = (.ok false, na) → asFn fa = none →
       runV (fuel + 1) (apB src fb) = some (.ok fa)) ∧
    (∀ (fuel : Nat) (src : JSBox) (fb : JSVal) (fa vb r : JSVal) (g : JSFunc)
       (nv na nb nc m : Nat),
       evalBox fuel src = some (.ok (.prom (.fulfilled fa)), nv) →
       isBadValueC src.badValues fa = (.ok false, na) → asFn fa = some g →
       unboxOne fuel fb = some (.ok (.prom (.fulfilled vb)), nb) →
       isBadValueC src.badValues vb = (.ok false, nc) →
       applyFn g vb = (.ok r, m) → asProm r = none →
       runV (fuel + 1) (apB src fb) =
         some (.ok (.prom (.fulfilled r)))) ∧
    (∀ (fuel : Nat) (src : JSBox) (fb : JSVal) (fa vb r : JSVal) (g : JSFunc)
       (nv na nb nc m : Nat),
       evalBox fuel src = some (.ok (.prom (.fulfilled fa)), nv) →
       isBadValueC src.badValues fa = (.ok false, na) → asFn fa = some g →
       unboxOne fuel fb = some (.ok vb, nb) → asProm vb = none →
       isBadValueC src.badValues vb = (.ok false, nc) →
       applyFn g vb = (.ok r, m) → asProm r = none →
       runV (fuel + 1) (apB src fb) =
         some (.ok (.prom (.fulfilled r)))) ∧
    (∀ (fuel : Nat) (src : JSBox) (fb : JSVal) (fa vb r : JSVal) (g : JSFunc)
       (nv na nb nc m : Nat),
       evalBox fuel src = some (.ok fa, nv) → asProm fa = none →
       isBadValueC src.badValues fa = (.ok false, na) → asFn fa = some g →
       unboxOne fuel fb = some (.ok (.prom (.fulfilled vb)), nb) →
       isBadValueC src.badValues vb = (.ok false, nc) →
       applyFn g vb = (.ok r, m) → asProm r = none →
       runV (fuel + 1) (apB src fb) =
         some (.ok (.prom (.fulfilled r)))) ∧
    (∀ (fuel : Nat) (src : JSBox) (fb : JSVal) (bv : JSVal) (nv nb : Nat),
       evalBox fuel src = some (.ok (.prom (.fulfilled bv)), nv) →
       asProm bv = none →
       isBadValueC src.badValues bv = (.ok true, nb) →
       runBox (fuel + 1) (apB src fb) =
         some (.ok (.prom (.fulfilled bv)), nv + nb)) ∧
    (∀ (fuel : Nat) (src : JSBox) (fb : JSVal) (vb : JSVal) (g : JSFunc),
       evalBox fuel src = some (.ok (.fn (.spy g)), 0) →
       isBadValueC src.badValues (.fn (.spy g)) = (.ok false, 0) →
       unboxOne fuel fb = some (.ok (.prom (.fulfilled vb)), 0) →
       asProm vb = none →
       isBadValueC src.badValues vb = (.ok true, 0) →
       runBox (fuel + 1) (apB src fb) =
         some (.ok (.prom (.fulfilled vb)), 0)) := by
  refine ⟨?_, ?_, ?_, ?_, ?_, ?_, ?_, ?_, ?_⟩
  · intro fuel src fb fa vb r g nv na nb nc m h hpa hba hg hu hpb hbb happ hr
    obtain ⟨t, cfg⟩ := src
    simp [evalBox, JSBox.thunk] at h
    simp [JSBox.badValues] at hba hbb
    simp [runV, runBox, apB, JSBox.thunk, JSBox.badValues, evalThunk, h,
          bindE, resolveC, hpa, hba, hg, hu, hpb, hbb, liftA, happ,
          catchE, addC, hr]
  · intro fuel src fb bv nv nb h hp hb
    obtain ⟨t, cfg⟩ := src
    simp [evalBox, JSBox.thunk] at h
    simp [JSBox.badValues] at hb
    simp [runBox, apB, JSBox.thunk, JSBox.badValues, evalThunk, h,
          bindE, resolveC, hp, hb, pureE, catchE, addC]
  · intro fuel src fb vb g h hba hu hpb hbb
    obtain ⟨t, cfg⟩ := src
    simp [evalBox, JSBox.thunk] at h
    simp [JSBox.badValues] at hba hbb
    have hp1 : asProm (.fn (.spy g)) = none := rfl
    have hf1 : asFn (.fn (.spy g)) = some (.spy g) := rfl
    simp [runBox, apB, JSBox.thunk, JSBox.badValues, evalThunk, h,
          bindE, resolveC, hp1, hf1, hba, hu, hpb, hbb, pureE,
          catchE, addC]
  · intro fuel src fb fa nv na h hpa hba hg
    obtain ⟨t, cfg⟩ := src
    simp [evalBox, JSBox.thunk] at h
    simp [JSBox.badValues] at hba
    simp [runV, runBox, apB, JSBox.thunk, JSBox.badValues, evalThunk, h,
          bindE, resolveC, hpa, hba, hg, pureE, catchE, addC]
  · intro fuel src fb fa vb r g nv na nb nc m h hba hg hu hbb happ hr
    obtain ⟨t, cfg⟩ := src
    simp [evalBox, JSBox.thunk] at h
    simp [JSBox.badValues] at hba hbb
    have hfl := flattenProm_not_prom hr
    have hp1 : asProm (JSVal.prom (.fulfilled fa)) = some (.fulfilled fa) := rfl
    have hp2 : asProm (JSVal.prom (.fulfilled vb)) = some (.fulfilled vb) := rfl
    have hfp : ∀ p, flattenProm (JSVal.prom p) = p := fun p => rfl
    have hpp : ∀ p, asProm (JSVal.prom p) = some p := fun p => rfl
    simp [runV, runBox, apB, JSBox.thunk, JSBox.badValues, evalThunk, h,
          bindE, resolveC, hp1, hp2, hfp, hpp, promThenC, promCatchC, hba,
          hg, hu, hbb, liftA, happ, hfl, pureE, catchE, addC]
  · intro fuel src fb fa vb r g nv na nb nc m h hba hg hu hpb hbb happ hr
    obtain ⟨t, cfg⟩ := src
    simp [evalBox, JSBox.thunk] at h
    simp [JSBox.badValues] at hba hbb
    have hfl := flattenProm_not_prom hr
    have hfp : ∀ p, flattenProm (JSVal.prom p) = p := fun p => rfl
    have hpp : ∀ p, asProm (JSVal.prom p) = some p := fun p => rfl
    simp [runV, runBox, apB, JSBox.thunk, JSBox.badValues, evalThunk, h,
          bindE, resolveC, hfp, hpp, promThenC, promCatchC, hba, hg, hu,
          hpb, hbb, liftA, happ, hfl, pureE, catchE, addC]
  · intro fuel src fb fa vb r g nv na nb nc m h hpa hba hg hu hbb happ hr
    obtain ⟨t, cfg⟩ := src
    simp [evalBox, JSBox.thunk] at h
    simp [JSBox.badValues] at hba hbb
    have hfl := flattenProm_not_prom hr
    have hfp : ∀ p, flattenProm (JSVal.prom p) = p := fun p => rfl
    have hpp : ∀ p, asProm (JSVal.prom p) = some p := fun p => rfl
    simp [runV, runBox, apB, JSBox.thunk, JSBox.badValues, evalThunk, h,
          bindE, resolveC, hfp, hpp, promThenC, promCatchC, hpa, hba, hg,
          hu, hbb, liftA, happ, hfl, pureE, catchE, addC]
  · intro fuel src fb bv nv nb h hp hb
    obtain ⟨t, cfg⟩ := src
    simp [evalBox, JSBox.thunk] at h
    simp [JSBox.badValues] at hb
    have hfl := flattenProm_not_prom hp
    have hpp : ∀ p, asProm (JSVal.prom p) = some p := fun p => rfl
    simp [runBox, apB, JSBox.thunk, JSBox.badValues, evalThunk, h,
          bindE, resolveC, hpp, promThenC, promCatchC, hb, hfl, pureE,
          catchE, addC]
  · intro fuel src fb vb g h hba hu hpb hbb
    obtain ⟨t, cfg⟩ := src
    simp [evalBox, JSBox.thunk] at h
    simp [JSBox.badValues] at hba hbb
    have hfl := flattenProm_not_prom hpb
    have hp1 : asProm (.fn (.spy g)) = none := rfl
    have hf1 : asFn (.fn (.spy g)) = some (.spy g) := rfl
    have hpp : ∀ p, asProm (JSVal.prom p) = some p := fun p => rfl
    simp [runBox, apB, JSBox.thunk, JSBox.badValues, evalThunk, h,
          bindE, resolveC, hp1, hf1, hpp, promThenC, promCatchC, hba, hu,
          hpb, hbb, hfl, pureE, catchE, addC]

/-- Witness for C8: `Box.of(x => x + 1).ap(Box.of(2)).run() === 3`, the
bad-value short-circuits on either side (synchronously and through a
pending result), and application with a pending argument. -/
theorem ap_applies_boxed_function_witness :
    runV (2 + 1) (apB (ofB (.fn .addOne) defaultBadValues)
        (.box (ofB (.num 2) defaultBadValues))) = some (.ok (.num 3)) ∧
    runBox (2 + 1) (apB (ofB .null defaultBadValues)
        (.box (ofB (.num 2) defaultBadValues))) = some (.ok .null, 0 + 0) ∧
    runBox (2 + 1) (apB (ofB (.fn (.spy .addOne)) defaultBadValues)
        (.box (ofB .null defaultBadValues))) = some (.ok .null, 0) ∧
    runV (2 + 1) (apB (ofB (.fn .addOne) defaultBadValues)
        (.prom (.fulfilled (.num 2)))) =
      some (.ok (.prom (.fulfilled (.num 3)))) ∧
    runBox (1 + 1) (apB (ofB (.prom (.fulfilled .null)) defaultBadValues)
        (.box (ofB (.num 2) defaultBadValues))) =
      some (.ok (.prom (.fulfilled .null)), 0 + 0) ∧
    runBox (2 + 1) (apB (ofB (.fn (.spy .addOne)) defaultBadValues)
        (.prom (.fulfilled .null))) =
      some (.ok (.prom (.fulfilled .null)), 0) :=
  ⟨ap_applies_boxed_function.1 2 (ofB (.fn .addOne) defaultBadValues)
      (.box (ofB (.num 2) defaultBadValues)) (.fn .addOne) (.num 2) (.num 3)
      .addOne 0 0 0 0 0 (by rfl) (by rfl) (by rfl) (by rfl) (by rfl) (by rfl)
      (by rfl) (by rfl) (by rfl),
   ap_applies_boxed_function.2.1 2 (ofB .null defaultBadValues)
      (.box (ofB (.num 2) defaultBadValues)) .null 0 0
      (by rfl) (by rfl) (by rfl),
   ap_applies_boxed_function.2.2.1 2 (ofB (.fn (.spy .addOne)) defaultBadValues)
      (.box (ofB .null defaultBadValues)) .null .addOne
      (by rfl) (by rfl) (by rfl) (by rfl) (by rfl),
   ap_applies_boxed_function.2.2.2.2.2.2.1 2
      (ofB (.fn .addOne) defaultBadValues) (.prom (.fulfilled (.num 2)))
      (.fn .addOne) (.num 2) (.num 3) .addOne 0 0 0 0 0
      (by rfl) (by rfl) (by rfl) (by rfl) (by rfl) (by rfl) (by rfl) (by rfl),
   ap_applies_boxed_function.2.2.2.2.2.2.2.1 1
      (ofB (.prom (.fulfilled .null)) defaultBadValues)
      (.box (ofB (.num 2) defaultBadValues)) .null 0 0
      (by rfl) (by rfl) (by rfl),
   ap_applies_boxed_function.2.2.2.2.2.2.2.2 2
      (ofB (.fn (.spy .addOne)) defaultBadValues) (.prom (.fulfilled .null))
      .null .addOne (by rfl) (by rfl) (by rfl) (by rfl) (by rfl)⟩

/-! ## Claim C5 -/

/-- The branch `fold` must select, per the claim: `onError` for error
values and rejections, `onNothing` for configured bad values,
`onOk` otherwise — together with that branch callback's application
count.  In the pending cases the chosen marker is delivered through the
settled promise chain. -/
def foldPick (rv : Except JSVal JSVal) (badf : JSVal → Bool)
    (eM nM sM : JSVal) (ce cn cs : Nat) : JSVal × Nat :=
  match rv with
  | .error _ => (eM, ce)
  | .ok v =>
    match asProm v with
    | some (.rejected _) => (.prom (.fulfilled eM), ce)
    | some (.fulfilled w) =>
      if isErrorV w then (.prom (.fulfilled eM), ce)
      else if badf w then (.prom (.fulfilled nM), cn)
      else (.prom (.fulfilled sM), cs)
    | none =>
      if isErrorV v then (eM, ce)
      else if badf v then (nM, cn)
      else (sM, cs)

/-- Claim C5: `fold` is a total three-way pattern match.  For every box
state — a producer yielding a success, bad, or error value, a producer
throw, or a pending result resolving or rejecting into any of those —
and callbacks with known results and application counts, exactly one of
the three branch callbacks is applied (the final count is that branch's
application count, the other two contribute nothing), the branch chosen
is `onError` for errors, throws and rejections, `onNothing` for
configured bad values and `onOk` otherwise, and the provided
`onFinally` is applied exactly once on top (`+ cf`), in both the
synchronous and the pending case. -/
theorem fold_total_coverage (fuel : Nat) (b : JSBox) (rv : Except JSVal JSVal)
    (badf : JSVal → Bool) (cbE cbN cbS cbF : JSFunc)
    (eM nM sM uM : JSVal) (ce cn cs cf : Nat)
    (hval : evalBox fuel b = some (rv, 0))
    (hbadf : ∀ w, isBadValueC b.badValues w = (.ok (badf w), 0))
    (hE : ∀ x, applyFn cbE x = (.ok eM, ce))
    (hN : ∀ x, applyFn cbN x = (.ok nM, cn))
    (hS : ∀ x, applyFn cbS x = (.ok sM, cs))
    (hF : applyFn cbF .undef = (.ok uM, cf))
    (hpe : asProm eM = none) (hpn : asProm nM = none) (hps : asProm sM = none) :
    foldBox fuel b cbE cbN cbS (some cbF) =
      some (.ok (foldPick rv badf eM nM sM ce cn cs).1,
            (foldPick rv badf eM nM sM ce cn cs).2 + cf) := by
  obtain ⟨t, cfg⟩ := b
  simp [evalBox, JSBox.thunk] at hval
  simp [JSBox.badValues] at hbadf
  have hfe := flattenProm_not_prom hpe
  have hfn := flattenProm_not_prom hpn
  have hfs := flattenProm_not_prom hps
  have hpp : ∀ p, asProm (JSVal.prom p) = some p := fun p => rfl
  cases rv with
  | error err =>
    simp [foldBox, JSBox.thunk, JSBox.badValues, hval, finSeq, liftA,
          hE, hF, addC, foldPick]
  | ok v =>
    cases hpv : asProm v with
    | none =>
      by_cases hEv : isErrorV v = true
      · simp [foldBox, JSBox.thunk, JSBox.badValues, hval, hpv,
              foldSyncBranch, hEv, finSeq, liftA, catchE, hE, hF, addC,
              foldPick]
      · simp only [Bool.not_eq_true] at hEv
        by_cases hBv : badf v = true
        · simp [foldBox, JSBox.thunk, JSBox.badValues, hval, hpv,
                foldSyncBranch, hEv, hbadf, hBv, finSeq, liftA, catchE,
                hN, hF, addC, foldPick]
        · simp only [Bool.not_eq_true] at hBv
          simp [foldBox, JSBox.thunk, JSBox.badValues, hval, hpv,
                foldSyncBranch, hEv, hbadf, hBv, finSeq, liftA, catchE,
                hS, hF, addC, foldPick]
    | some p =>
      cases p with
      | rejected e =>
        simp [foldBox, JSBox.thunk, JSBox.badValues, hval, hpv, promThenC,
              promCatchC, promFin, bindE, hpp, hE, hF, hfe, liftA, pureE,
              addC, foldPick]
      | fulfilled w =>
        by_cases hEw : isErrorV w = true
        · simp [foldBox, JSBox.thunk, JSBox.badValues, hval, hpv,
                promThenC, promCatchC, promFin, bindE, hpp,
                foldSyncBranch, hEw, hE, hF, hfe, liftA, pureE, addC,
                foldPick]
        · simp only [Bool.not_eq_true] at hEw
          by_cases hBw : badf w = true
          · simp [foldBox, JSBox.thunk, JSBox.badValues, hval, hpv,
                  promThenC, promCatchC, promFin, bindE, hpp,
                  foldSyncBranch, hEw, hbadf, hBw, hN, hF, hfn, liftA,
                  pureE, addC, foldPick]
          · simp only [Bool.not_eq_true] at hBw
            simp [foldBox, JSBox.thunk, JSBox.badValues, hval, hpv,
                  promThenC, promCatchC, promFin, bindE, hpp,
                  foldSyncBranch, hEw, hbadf, hBw, hS, hF, hfs, liftA,
                  pureE, addC, foldPick]

/-- Witness for C5: with all four callbacks spy-instrumented, each box
state yields the classification marker with total spy count 2 — the
chosen branch once, `onFinally` once. -/
theorem fold_total_coverage_witness :
    foldBox 1 (ofB (.num 7) defaultBadValues)
        (.spy (.constF (.str "E"))) (.spy (.constF (.str "B")))
        (.spy (.constF (.str "S"))) (some (.spy (.constF (.str "F")))) =
      some (.ok (.str "S"), 1 + 1) ∧
    foldBox 1 (ofB .null defaultBadValues)
        (.spy (.constF (.str "E"))) (.spy (.constF (.str "B")))
        (.spy (.constF (.str "S"))) (some (.spy (.constF (.str "F")))) =
      some (.ok (.str "B"), 1 + 1) ∧
    foldBox 1 (thunkB (.throwT (.err "t")) defaultBadValues)
        (.spy (.constF (.str "E"))) (.spy (.constF (.str "B")))
        (.spy (.constF (.str "S"))) (some (.spy (.constF (.str "F")))) =
      some (.ok (.str "E"), 1 + 1) ∧
    foldBox 1 (ofB (.prom (.rejected (.num 3))) defaultBadValues)
        (.spy (.constF (.str "E"))) (.spy (.constF (.str "B")))
        (.spy (.constF (.str "S"))) (some (.spy (.constF (.str "F")))) =
      some (.ok (.prom (.fulfilled (.str "E"))), 1 + 1) :=
  ⟨fold_total_coverage 1 (ofB (.num 7) defaultBadValues) (.ok (.num 7))
      isBadDefault _ _ _ _ (.str "E") (.str "B") (.str "S") (.str "F") 1 1 1 1
      (by rfl) isBadValueC_default (fun x => rfl) (fun x => rfl) (fun x => rfl)
      rfl rfl rfl rfl,
   fold_total_coverage 1 (ofB .null defaultBadValues) (.ok .null)
      isBadDefault _ _ _ _ (.str "E") (.str "B") (.str "S") (.str "F") 1 1 1 1
      (by rfl) isBadValueC_default (fun x => rfl) (fun x => rfl) (fun x => rfl)
      rfl rfl rfl rfl,
   fold_total_coverage 1 (thunkB (.throwT (.err "t")) defaultBadValues)
      (.error (.err "t"))
      isBadDefault _ _ _ _ (.str "E") (.str "B") (.str "S") (.str "F") 1 1 1 1
      (by rfl) isBadValueC_default (fun x => rfl) (fun x => rfl) (fun x => rfl)
      rfl rfl rfl rfl,
   fold_total_coverage 1 (ofB (.prom (.rejected (.num 3))) defaultBadValues)
      (.ok (.prom (.rejected (.num 3))))
      isBadDefault _ _ _ _ (.str "E") (.str "B") (.str "S") (.str "F") 1 1 1 1
      (by rfl) isBadValueC_default (fun x => rfl) (fun x => rfl) (fun x => rfl)
      rfl rfl rfl rfl⟩

/-! ## Claim C10 -/

/-- Claim C10 (implicit): `fold`'s error branch does not consult the
configured bad-value rules — for every configuration `cfg` (in
particular one whose `badValues` omit the error predicate), a producer
yielding an `Error` instance, or a pending result fulfilling with one,
makes `fold` apply `onError` (and neither `onNothing` nor `onOk`: the
count is exactly `ce + cf`), because `fold` tests the host
error-instance check before the configuration.  By contrast `map`'s
skipping of an `Error` value is decided entirely by the configuration:
under the default rules the callback is never invoked (spy count 0)
and the error propagates, while under rules without the error
predicate the callback is applied to the error value. -/
theorem fold_error_branch_ignores_config :
    (∀ (fuel : Nat) (t : JSThunk) (cfg : List JSVal) (msg : String)
       (cbE cbN cbS cbF : JSFunc) (eM uM : JSVal) (ce cf : Nat),
       evalThunk fuel t = some (.ok (.err msg), 0) →
       (∀ x, applyFn cbE x = (.ok eM, ce)) →
       applyFn cbF .undef = (.ok uM, cf) →
       foldBox fuel (.mk t cfg) cbE cbN cbS (some cbF) =
         some (.ok eM, ce + cf)) ∧
    (∀ (fuel : Nat) (t : JSThunk) (cfg : List JSVal) (msg : String)
       (cbE cbN cbS cbF : JSFunc) (eM uM : JSVal) (ce cf : Nat),
       evalThunk fuel t = some (.ok (.prom (.fulfilled (.err msg))), 0) →
       (∀ x, applyFn cbE x = (.ok eM, ce)) →
       applyFn cbF .undef = (.ok uM, cf) → asProm eM = none →
       foldBox fuel (.mk t cfg) cbE cbN cbS (some cbF) =
         some (.ok (.prom (.fulfilled eM)), ce + cf)) ∧
    (∀ (fuel : Nat) (msg : String) (f : JSFunc),
       runBox (fuel + 2) (mapB (ofB (.err msg) defaultBadValues) (.spy f)) =
         some (.ok (.err msg), 0)) ∧
    (∀ (fuel : Nat) (msg : String) (f : JSFunc) (r : JSVal) (m : Nat),
       applyFn f (.err msg) = (.ok r, m) → asProm r = none →
       runV (fuel + 2) (mapB (ofB (.err msg) [.null, .undef, .fn .isNaNF]) f)
         = some (.ok r)) := by
  refine ⟨?_, ?_, ?_, ?_⟩
  · intro fuel t cfg msg cbE cbN cbS cbF eM uM ce cf h hE hF
    have hperr : asProm (JSVal.err msg) = none := rfl
    simp [foldBox, JSBox.thunk, h, hperr, foldSyncBranch, isErrorV,
          catchE, finSeq, liftA, hE, hF, addC]
  · intro fuel t cfg msg cbE cbN cbS cbF eM uM ce cf h hE hF hpe
    have hfe := flattenProm_not_prom hpe
    have hpp : ∀ p, asProm (JSVal.prom p) = some p := fun p => rfl
    simp [foldBox, JSBox.thunk, h, hpp, promThenC, promCatchC, promFin,
          bindE, foldSyncBranch, isErrorV, hE, hF, hfe, liftA, pureE, addC]
  · intro fuel msg f
    have hb : isBadValueC defaultBadValues (.err msg) = (.ok true, 0) := by
      rw [isBadValueC_default]; rfl
    have hp : asProm (JSVal.err msg) = none := rfl
    have hres := @resolveC_sync_bad defaultBadValues (.err msg) _
      (fun x => liftA (applyFn (.spy f) x)) hp hb
    simp [runBox, mapB, ofB, JSBox.thunk, JSBox.badValues, evalThunk,
          bindE_pure, hres, hp]
  · intro fuel msg f r m hf hr
    have hb : isBadValueC [.null, .undef, .fn .isNaNF] (.err msg) =
        (.ok false, 0) := rfl
    have hp : asProm (JSVal.err msg) = none := rfl
    have hres := @resolveC_sync_good [.null, .undef, .fn .isNaNF] (.err msg) _
      (fun x => liftA (applyFn f x)) hp hb
    simp only [runV, runBox, mapB, ofB, JSBox.thunk, JSBox.badValues,
      evalThunk, bindE_pure]
    rw [hres]
    simp [liftA, hf, catchE, addC, hr]

/-- Witness for C10 at `cfg = [null, undefined, Number.isNaN]` (no error
rule): fold still picks `onError` on an error value while map applies
its callback to it; under the default rules map skips it. -/
theorem fold_error_branch_ignores_config_witness :
    foldBox 1 (.mk (.pureT (.err "boom")) [.null, .undef, .fn .isNaNF])
        (.spy (.constF (.str "E"))) (.spy (.constF (.str "B")))
        (.spy (.constF (.str "S"))) (some (.spy (.constF (.str "F")))) =
      some (.ok (.str "E"), 1 + 1) ∧
    runBox (1 + 2) (mapB (ofB (.err "boom") defaultBadValues) (.spy .idF)) =
      some (.ok (.err "boom"), 0) ∧
    runV (1 + 2) (mapB (ofB (.err "boom") [.null, .undef, .fn .isNaNF])
        (.constF (.str "ran"))) = some (.ok (.str "ran")) :=
  ⟨fold_error_branch_ignores_config.1 1 (.pureT (.err "boom"))
      [.null, .undef, .fn .isNaNF] "boom" _ (.spy (.constF (.str "B")))
      (.spy (.constF (.str "S"))) _ (.str "E") (.str "F") 1 1
      (by rfl) (fun x => rfl) rfl,
   fold_error_branch_ignores_config.2.2.1 1 "boom" .idF,
   fold_error_branch_ignores_config.2.2.2 1 "boom" (.constF (.str "ran"))
      (.str "ran") 0 (by rfl) (by rfl)⟩

/-! ## Claim C9 -/

/-- Claim C9: every combinator of the chainable interface merely
returns a new box whose producer closes over the prior box, with the
prior configuration carried over (`withConfig` / `restoreDefaults`
reuse the same producer with a replaced configuration); no combinator
invokes the wrapped producer — in the embedding, combinator application
is pure box construction, independent of the producer's behaviour, and
a producer effect (here: a throw) becomes observable only when a
terminal runner forces the chain, as the final clause shows. -/
theorem combinators_defer_producer :
    (∀ (t : JSThunk) (cfg : List JSVal) (f : JSFunc),
       mapB (.mk t cfg) f = .mk (.mapT (.mk t cfg) f) cfg) ∧
    (∀ (t : JSThunk) (cfg : List JSVal) (p : JSFunc),
       filterB (.mk t cfg) p = .mk (.filterT (.mk t cfg) p) cfg) ∧
    (∀ (t : JSThunk) (cfg : List JSVal) (f : JSFunc),
       flatMapB (.mk t cfg) f = .mk (.flatMapT (.mk t cfg) f) cfg) ∧
    (∀ (t : JSThunk) (cfg : List JSVal),
       flatB (.mk t cfg) = .mk (.flatT (.mk t cfg)) cfg) ∧
    (∀ (t : JSThunk) (cfg : List JSVal) (fb : JSVal),
       apB (.mk t cfg) fb = .mk (.apT (.mk t cfg) fb) cfg) ∧
    (∀ (t : JSThunk) (cfg : List JSVal) (f : JSFunc),
       traverseB (.mk t cfg) f = .mk (.traverseT (.mk t cfg) f) cfg) ∧
    (∀ (t : JSThunk) (cfg : List JSVal),
       sequenceB (.mk t cfg) = .mk (.sequenceT (.mk t cfg)) cfg) ∧
    (∀ (t : JSThunk) (cfg : List JSVal),
       distributeB (.mk t cfg) = .mk (.distributeT (.mk t cfg)) cfg) ∧
    (∀ (t : JSThunk) (cfg : List JSVal) (f : JSFunc),
       catchB (.mk t cfg) f = .mk (.catchT (.mk t cfg) f) cfg) ∧
    (∀ (t : JSThunk) (cfg : List JSVal) (f : JSFunc),
       recoverB (.mk t cfg) f = .mk (.recoverT (.mk t cfg) f) cfg) ∧
    (∀ (t : JSThunk) (cfg newBad : List JSVal),
       withConfigB (.mk t cfg) (some newBad) = .mk t newBad) ∧
    (∀ (t : JSThunk) (cfg : List JSVal),
       restoreDefaultsB (.mk t cfg) = .mk t defaultBadValues) ∧
    (∀ (e : JSVal) (cfg : List JSVal) (f : JSFunc) (fuel : Nat),
       runV (fuel + 2) (mapB (thunkB (.throwT e) cfg) f) = some (.ok e)) := by
  refine ⟨fun t cfg f => rfl, fun t cfg p => rfl, fun t cfg f => rfl,
          fun t cfg => rfl, fun t cfg fb => rfl, fun t cfg f => rfl,
          fun t cfg => rfl, fun t cfg => rfl, fun t cfg f => rfl,
          fun t cfg f => rfl, fun t cfg newBad => rfl, fun t cfg => rfl, ?_⟩
  intro e cfg f fuel
  simp [runV, runBox, mapB, thunkB, JSBox.thunk, JSBox.badValues,
        evalThunk, throwE, bindE]

/-! ## Claim C1 — infrastructure

`okVal` projects the successful value of an evaluation, discarding the
instrumentation count; the traverse pipeline is then characterized
stage by stage. -/

def okVal {α : Type} (m : EvalM α) : Option α :=
  match m with
  | some (.ok a, _) => some a
  | _ => none

theorem okVal_eq_some {α : Type} {m : EvalM α} {a : α} :
    okVal m = some a ↔ ∃ n, m = some (.ok a, n) := by
  constructor
  · intro h
    match m with
    | none => exact absurd h (by simp [okVal])
    | some (.error e, n) => exact absurd h (by simp [okVal])
    | some (.ok b, n) =>
      refine ⟨n, ?_⟩
      simp [okVal] at h
      rw [h]
  · rintro ⟨n, rfl⟩
    rfl

theorem okVal_addC {α : Type} (n : Nat) (m : EvalM α) :
    okVal (addC n m) = okVal m := by
  match m with
  | none => rfl
  | some (.error e, k) => rfl
  | some (.ok a, k) => rfl

theorem okVal_pureE {α : Type} (a : α) : okVal (pureE a) = some a := rfl

theorem okVal_bindE {α β : Type} {m : EvalM α} {a : α}
    (f : α → EvalM β) (h : okVal m = some a) :
    okVal (bindE m f) = okVal (f a) := by
  obtain ⟨n, rfl⟩ := okVal_eq_some.mp h
  simp [bindE, okVal_addC]

theorem runV_of_okVal {fuel : Nat} {b : JSBox} {v : JSVal}
    (h : okVal (evalThunk fuel b.thunk) = some v) (hp : asProm v = none) :
    runV fuel b = some (.ok v) := by
  obtain ⟨n, hn⟩ := okVal_eq_some.mp h
  simp [runV, runBox, hn, hp]

theorem okVal_resolveC_good {cfg : List JSVal} {v w : JSVal} {n : Nat}
    (onOk : JSVal → EvalM JSVal)
    (hp : asProm v = none) (hb : isBadValueC cfg v = (.ok false, n))
    (h : okVal (onOk v) = some w) :
    okVal (resolveC cfg v onOk) = some w := by
  rw [resolveC_sync_good onOk hp hb, okVal_addC]
  obtain ⟨k, hk⟩ := okVal_eq_some.mp h
  simp [catchE, hk, okVal]

/-- The element transformation of `traverse` under the default
configuration: a bad element is carried through unchanged at its
position; a non-bad element is replaced by the result of the callback
(with a thrown callback exception carried as an error value). -/
def elemTr (f : JSFunc) (x : JSVal) : JSVal :=
  if isBadDefault x then x else appRes f x

theorem okVal_entry_resolve (f : JSFunc) (x : JSVal) (hp : asProm x = none) :
    okVal (resolveC defaultBadValues x (fun y => liftA (applyFn f y))) =
      some (elemTr f x) := by
  by_cases hb : isBadDefault x = true
  · rw [resolveC_sync_bad _ hp (by rw [isBadValueC_default, hb])]
    simp [okVal, elemTr, hb]
  · simp only [Bool.not_eq_true] at hb
    rw [resolveC_sync_good _ hp (by rw [isBadValueC_default, hb]), okVal_addC]
    cases ha : applyFn f x with
    | mk r n =>
      cases r with
      | ok w => simp [catchE, liftA, ha, okVal, elemTr, hb, appRes]
      | error e =>
        simp [catchE, liftA, ha, okVal, elemTr, hb, appRes, addC, pureE]

theorem okVal_entsApplyP (f : JSFunc) : ∀ (es : List (JSVal × JSVal)),
    (∀ kv ∈ es, asProm kv.2 = none) →
    okVal (entsApplyP defaultBadValues f es) =
      some (es.map (fun kv => (kv.1, elemTr f kv.2)))
  | [], _ => rfl
  | kv :: rest, h => by
    have h1 := okVal_entry_resolve f kv.2 (h kv (List.mem_cons_self kv rest))
    have ih := okVal_entsApplyP f rest
      (fun e he => h e (List.mem_cons_of_mem kv he))
    simp only [entsApplyP]
    rw [okVal_bindE _ h1, okVal_bindE _ ih]
    simp [okVal_pureE]

theorem unboxDeep_plain (fuel : Nat) (v : JSVal)
    (hb : asBox v = none) (hp : asProm v = none) :
    unboxDeep (fuel + 1) v = pureE v := by
  simp [unboxDeep, hb, hp]

theorem entsUnboxP_plain : ∀ (fuel : Nat) (es : List (JSVal × JSVal)),
    (∀ kv ∈ es, asBox kv.2 = none ∧ asProm kv.2 = none) →
    es.length < fuel → entsUnboxP fuel es = pureE es := by
  intro fuel
  induction fuel with
  | zero => intro es h hlen; omega
  | succ f ih =>
    intro es h hlen
    match es with
    | [] => rfl
    | kv :: rest =>
      have hflen : rest.length < f := by simp at hlen; omega
      obtain ⟨g, rfl⟩ : ∃ g, f = g + 1 := ⟨f - 1, by omega⟩
      have hkv := h kv (List.mem_cons_self kv rest)
      have hrest := ih rest (fun e he => h e (List.mem_cons_of_mem kv he))
        hflen
      simp only [entsUnboxP]
      rw [unboxDeep_plain _ _ hkv.1 hkv.2, bindE_pure, hrest, bindE_pure]

theorem entPair_roundtrip : ∀ (es : List (JSVal × JSVal)),
    es.map (fun kv => entPair (JSVal.arr [kv.1, kv.2])) = es
  | [] => rfl
  | kv :: rest => by simp [entPair, entPair_roundtrip rest]

theorem parseCxt_mkCxt (s : JSVal) (es : List (JSVal × JSVal)) :
    parseCxt (mkCxt s es) = some (s, es) := by
  simp only [parseCxt, mkCxt, List.map_map]
  have : (entPair ∘ fun kv : JSVal × JSVal => JSVal.arr [kv.1, kv.2]) =
      fun kv : JSVal × JSVal => entPair (JSVal.arr [kv.1, kv.2]) := rfl
  rw [this, entPair_roundtrip es]

theorem stageUnboxM_plain (fuel : Nat) (s : JSVal) (es : List (JSVal × JSVal))
    (h : ∀ kv ∈ es, asBox kv.2 = none ∧ asProm kv.2 = none)
    (hlen : es.length + 1 < fuel) :
    stageUnboxM fuel (mkCxt s es) = pureE (mkCxt s es) := by
  match fuel, hlen with
  | f + 1, _ =>
    simp only [stageUnboxM, parseCxt_mkCxt]
    rw [entsUnboxP_plain f es h (by omega), bindE_pure]

/-- The full traverse pipeline on a producer yielding a synchronous,
non-bad value `C` whose entries (and their transformed values) are
plain (neither boxes nor pending results): the result is
`fromEntries` of the entry-wise transformed sequence over the original
source. -/
theorem okVal_traverse_pipeline (fuel : Nat) (C : JSVal) (f : JSFunc)
    (hCb : asBox C = none) (hCp : asProm C = none)
    (hCbad : isBadValueC defaultBadValues C = (.ok false, 0))
    (hel : ∀ kv ∈ toEntriesV C, asBox kv.2 = none ∧ asProm kv.2 = none)
    (her : ∀ kv ∈ toEntriesV C,
       asBox (elemTr f kv.2) = none ∧ asProm (elemTr f kv.2) = none)
    (hfuel : (toEntriesV C).length < fuel) :
    okVal (evalThunk (fuel + 4)
        (.traverseT (.mk (.pureT C) defaultBadValues) f)) =
      some (fromEntriesV
        ((toEntriesV C).map (fun kv => (kv.1, elemTr f kv.2))) C) := by
  have hcxtp : ∀ (s : JSVal) (es : List (JSVal × JSVal)),
      asProm (mkCxt s es) = none := fun s es => rfl
  have hcxtb : ∀ (s : JSVal) (es : List (JSVal × JSVal)),
      isBadValueC defaultBadValues (mkCxt s es) = (.ok false, 0) :=
    fun s es => rfl
  have h0 : okVal (evalThunk (fuel + 3)
      (JSBox.mk (.pureT C) defaultBadValues).thunk) = some C := by
    simp [JSBox.thunk, evalThunk, okVal, pureE]
  have h1 : okVal (resolveC defaultBadValues C
      (fun v => unboxDeep (fuel + 3) v)) = some C := by
    refine okVal_resolveC_good _ hCp hCbad ?_
    rw [show fuel + 3 = (fuel + 2) + 1 from rfl, unboxDeep_plain _ _ hCb hCp]
    rfl
  have h2 : okVal (resolveC defaultBadValues C
      (fun s => pureE (mkCxt s (toEntriesV s)))) =
        some (mkCxt C (toEntriesV C)) :=
    okVal_resolveC_good _ hCp hCbad rfl
  have h3 : okVal (resolveC defaultBadValues (mkCxt C (toEntriesV C))
      (fun c => stageUnboxM (fuel + 3) c)) =
        some (mkCxt C (toEntriesV C)) := by
    refine okVal_resolveC_good _ (hcxtp _ _) (hcxtb _ _) ?_
    rw [stageUnboxM_plain _ _ _ hel (by omega)]
    rfl
  have h4 : okVal (resolveC defaultBadValues (mkCxt C (toEntriesV C))
      (stageApplyF defaultBadValues f)) =
        some (mkCxt C
          ((toEntriesV C).map (fun kv => (kv.1, elemTr f kv.2)))) := by
    refine okVal_resolveC_good _ (hcxtp _ _) (hcxtb _ _) ?_
    simp only [stageApplyF, parseCxt_mkCxt]
    rw [okVal_bindE _ (okVal_entsApplyP f (toEntriesV C)
      (fun kv hkv => (hel kv hkv).2))]
    rfl
  have hmapped : ∀ kv ∈ (toEntriesV C).map (fun kv => (kv.1, elemTr f kv.2)),
      asBox kv.2 = none ∧ asProm kv.2 = none := by
    intro kv hkv
    obtain ⟨e, he, rfl⟩ := List.mem_map.mp hkv
    exact her e he
  have h5 : okVal (resolveC defaultBadValues
      (mkCxt C ((toEntriesV C).map (fun kv => (kv.1, elemTr f kv.2))))
      (fun c => stageUnboxM (fuel + 3) c)) =
        some (mkCxt C
          ((toEntriesV C).map (fun kv => (kv.1, elemTr f kv.2)))) := by
    refine okVal_resolveC_good _ (hcxtp _ _) (hcxtb _ _) ?_
    rw [stageUnboxM_plain _ _ _ hmapped (by simp; omega)]
    rfl
  have h6 : okVal (resolveC defaultBadValues
      (mkCxt C ((toEntriesV C).map (fun kv => (kv.1, elemTr f kv.2))))
      stageFromF) =
        some (fromEntriesV
          ((toEntriesV C).map (fun kv => (kv.1, elemTr f kv.2))) C) := by
    refine okVal_resolveC_good _ (hcxtp _ _) (hcxtb _ _) ?_
    simp [stageFromF, parseCxt_mkCxt, okVal, pureE]
  show okVal (evalThunk ((fuel + 3) + 1)
      (.traverseT (.mk (.pureT C) defaultBadValues) f)) = _
  simp only [evalThunk, JSBox.thunk, JSBox.badValues]
  rw [okVal_bindE _ (by simpa [JSBox.thunk] using h0)]
  rw [okVal_bindE _ h1, okVal_bindE _ h2, okVal_bindE _ h3,
      okVal_bindE _ h4, okVal_bindE _ h5, h6]

/-! ### List lemmas for the per-kind shape results -/

theorem mem_enumFrom_val {α : Type} : ∀ (n : Nat) (xs : List α)
    (iv : Nat × α), iv ∈ List.enumFrom n xs → iv.2 ∈ xs
  | n, x :: xs, iv, h => by
    rcases List.mem_cons.mp h with h1 | h2
    · subst h1; exact List.mem_cons_self x xs
    · exact List.mem_cons_of_mem x (mem_enumFrom_val (n + 1) xs iv h2)

theorem enumFrom_map_val {α β : Type} (g : α → β) : ∀ (n : Nat)
    (xs : List α), (List.enumFrom n xs).map (fun iv => g iv.2) = xs.map g
  | _, [] => rfl
  | n, x :: xs => by simp [List.enumFrom, enumFrom_map_val g (n + 1) xs]

theorem foldl_objInsert_nodup : ∀ (l acc : List (String × JSVal)),
    (∀ kv ∈ l, ∀ e ∈ acc, (e.1 == kv.1) = false) →
    List.Pairwise (fun a b => (a.1 == b.1) = false) l →
    l.foldl objInsert acc = acc ++ l
  | [], acc, _, _ => by simp
  | kv :: rest, acc, hca, hp => by
    have hnone : acc.any (fun e => e.1 == kv.1) = false := by
      rw [List.any_eq_false]
      intro e he
      simp [hca kv (List.mem_cons_self kv rest) e he]
    have step : objInsert acc kv = acc ++ [kv] := by
      simp [objInsert, hnone]
    rw [List.foldl_cons, step,
        foldl_objInsert_nodup rest (acc ++ [kv])
          (by
            intro kv2 hkv2 e he
            rcases List.mem_append.mp he with h1 | h2
            · exact hca kv2 (List.mem_cons_of_mem kv hkv2) e h1
            · have he2 : e = kv := by simpa using h2
              subst he2
              exact (List.pairwise_cons.mp hp).1 kv2 hkv2)
          hp.of_cons]
    simp

theorem mkObjV_nodup (l : List (String × JSVal))
    (hp : List.Pairwise (fun a b => (a.1 == b.1) = false) l) :
    mkObjV l = l := by
  have := foldl_objInsert_nodup l [] (by intro kv _ e he; cases he) hp
  simpa [mkObjV] using this

theorem foldl_mapInsert_nodup : ∀ (l acc : List (JSVal × JSVal)),
    (∀ kv ∈ l, ∀ e ∈ acc, svz e.1 kv.1 = false) →
    List.Pairwise (fun a b => svz a.1 b.1 = false) l →
    l.foldl mapInsert acc = acc ++ l
  | [], acc, _, _ => by simp
  | kv :: rest, acc, hca, hp => by
    have hnone : acc.any (fun e => svz e.1 kv.1) = false := by
      rw [List.any_eq_false]
      intro e he
      simp [hca kv (List.mem_cons_self kv rest) e he]
    have step : mapInsert acc kv = acc ++ [kv] := by
      simp [mapInsert, hnone]
    rw [List.foldl_cons, step,
        foldl_mapInsert_nodup rest (acc ++ [kv])
          (by
            intro kv2 hkv2 e he
            rcases List.mem_append.mp he with h1 | h2
            · exact hca kv2 (List.mem_cons_of_mem kv hkv2) e h1
            · have he2 : e = kv := by simpa using h2
              subst he2
              exact (List.pairwise_cons.mp hp).1 kv2 hkv2)
          hp.of_cons]
    simp

theorem mkMapV_nodup (l : List (JSVal × JSVal))
    (hp : List.Pairwise (fun a b => svz a.1 b.1 = false) l) :
    mkMapV l = l := by
  have := foldl_mapInsert_nodup l [] (by intro kv _ e he; cases he) hp
  simpa [mkMapV] using this

/-! ### Claim C1 — counterexample and amended theorem -/

/-- Counterexample to C1 as stated: on a `Set`, positions are not
preserved elementwise.  `Box.of(new Set([1,2])).traverse(x => 0).run()`
rebuilds the result with `new Set(...)`, so the two transformed
elements collapse into the one-element set `{0}` rather than the
elementwise image `{0, 0}` the claim describes. -/
theorem traverse_set_collapses_duplicates :
    runV 30 (traverseB (ofB (.jset [.num 1, .num 2]) defaultBadValues)
        (.constF (.num 0))) = some (.ok (.jset [.num 0])) ∧
    JSVal.jset [.num 0] ≠ JSVal.jset [.num 0, .num 0] := by
  refine ⟨by rfl, ?_⟩
  intro h
  injection h with h2
  simp at h2

/-- Claim C1 (amended): under the default configuration, `traverse(fn)`
over a producer resolving to a collection of plain elements returns a
container of the same kind: for arrays, maps and plain records the
keys/positions are preserved and each element is replaced elementwise
(`elemTr`: bad elements are carried unchanged at their position,
non-bad elements by the resolved result of `fn`); for sets the
transformed elements are collected into a new `Set`, so duplicate
transformed values (SameValueZero) collapse; a non-collection resolved
value is treated as a one-element sequence and returned bare.  In
particular `Box.of({a:1,b:2}).traverse(x=>x+1).run()` deep-equals
`{a:2,b:3}` and `Box.of([1,2,3]).traverse(x=>x+1).run()` deep-equals
`[2,3,4]`. -/
theorem traverse_preserves_shape_amended :
    (∀ (fuel : Nat) (xs : List JSVal) (f : JSFunc),
       (∀ x ∈ xs, asBox x = none ∧ asProm x = none ∧
          asBox (elemTr f x) = none ∧ asProm (elemTr f x) = none) →
       xs.length < fuel →
       runV (fuel + 4) (traverseB (ofB (.arr xs) defaultBadValues) f) =
         some (.ok (.arr (xs.map (elemTr f))))) ∧
    (∀ (fuel : Nat) (es : List (String × JSVal)) (f : JSFunc),
       (∀ kv ∈ es, asBox kv.2 = none ∧ asProm kv.2 = none ∧
          asBox (elemTr f kv.2) = none ∧ asProm (elemTr f kv.2) = none) →
       List.Pairwise (fun a b => (a.1 == b.1) = false) es →
       es.length < fuel →
       runV (fuel + 4) (traverseB (ofB (.obj es) defaultBadValues) f) =
         some (.ok (.obj (es.map (fun kv => (kv.1, elemTr f kv.2)))))) ∧
    (∀ (fuel : Nat) (es : List (JSVal × JSVal)) (f : JSFunc),
       (∀ kv ∈ es, asBox kv.2 = none ∧ asProm kv.2 = none ∧
          asBox (elemTr f kv.2) = none ∧ asProm (elemTr f kv.2) = none) →
       List.Pairwise (fun a b => svz a.1 b.1 = false) es →
       es.length < fuel →
       runV (fuel + 4) (traverseB (ofB (.jmap es) defaultBadValues) f) =
         some (.ok (.jmap (es.map (fun kv => (kv.1, elemTr f kv.2)))))) ∧
    (∀ (fuel : Nat) (xs : List JSVal) (f : JSFunc),
       (∀ x ∈ xs, asBox x = none ∧ asProm x = none ∧
          asBox (elemTr f x) = none ∧ asProm (elemTr f x) = none) →
       xs.length < fuel →
       runV (fuel + 4) (traverseB (ofB (.jset xs) defaultBadValues) f) =
         some (.ok (.jset (mkSetV (xs.map (elemTr f)))))) ∧
    (∀ (fuel : Nat) (C : JSVal) (f : JSFunc),
       collKind C = .kScalar → asBox C = none → asProm C = none →
       isBadDefault C = false →
       asBox (appRes f C) = none → asProm (appRes f C) = none →
       runV (fuel + 6) (traverseB (ofB C defaultBadValues) f) =
         some (.ok (appRes f C))) ∧
    runV 30 (traverseB (ofB (.obj [("a", .num 1), ("b", .num 2)])
        defaultBadValues) .addOne) =
      some (.ok (.obj [("a", .num 2), ("b", .num 3)])) ∧
    runV 30 (traverseB (ofB (.arr [.num 1, .num 2, .num 3])
        defaultBadValues) .addOne) =
      some (.ok (.arr [.num 2, .num 3, .num 4])) := by
  refine ⟨?_, ?_, ?_, ?_, ?_, by rfl, by rfl⟩
  · -- arrays
    intro fuel xs f hels hfuel
    refine runV_of_okVal ?_ rfl
    have hel : ∀ kv ∈ toEntriesV (.arr xs),
        asBox kv.2 = none ∧ asProm kv.2 = none := by
      intro kv hkv
      simp only [toEntriesV, collKind, List.enum] at hkv
      obtain ⟨iv, hiv, rfl⟩ := List.mem_map.mp hkv
      have hx := hels iv.2 (mem_enumFrom_val 0 xs iv hiv)
      exact ⟨hx.1, hx.2.1⟩
    have her : ∀ kv ∈ toEntriesV (.arr xs),
        asBox (elemTr f kv.2) = none ∧ asProm (elemTr f kv.2) = none := by
      intro kv hkv
      simp only [toEntriesV, collKind, List.enum] at hkv
      obtain ⟨iv, hiv, rfl⟩ := List.mem_map.mp hkv
      have hx := hels iv.2 (mem_enumFrom_val 0 xs iv hiv)
      exact ⟨hx.2.2.1, hx.2.2.2⟩
    have hlen : (toEntriesV (.arr xs)).length < fuel := by
      simpa [toEntriesV, collKind, List.enum, List.enumFrom_length] using hfuel
    have hpipe := okVal_traverse_pipeline fuel (.arr xs) f rfl rfl rfl
      hel her hlen
    simp only [traverseB, ofB, JSBox.thunk, JSBox.badValues]
    rw [hpipe]
    simp only [toEntriesV, collKind, fromEntriesV, List.enum, List.map_map]
    rw [show ((fun kv : JSVal × JSVal => kv.2) ∘
          (fun kv : JSVal × JSVal => (kv.1, elemTr f kv.2)) ∘
          fun iv : Nat × JSVal => (JSVal.num iv.1, iv.2)) =
        fun iv : Nat × JSVal => elemTr f iv.2 from rfl]
    rw [enumFrom_map_val (elemTr f) 0 xs]
  · -- plain records
    intro fuel es f hels hnd hfuel
    refine runV_of_okVal ?_ rfl
    have hel : ∀ kv ∈ toEntriesV (.obj es),
        asBox kv.2 = none ∧ asProm kv.2 = none := by
      intro kv hkv
      simp only [toEntriesV, collKind] at hkv
      obtain ⟨e, he, rfl⟩ := List.mem_map.mp hkv
      have hx := hels e he
      exact ⟨hx.1, hx.2.1⟩
    have her : ∀ kv ∈ toEntriesV (.obj es),
        asBox (elemTr f kv.2) = none ∧ asProm (elemTr f kv.2) = none := by
      intro kv hkv
      simp only [toEntriesV, collKind] at hkv
      obtain ⟨e, he, rfl⟩ := List.mem_map.mp hkv
      have hx := hels e he
      exact ⟨hx.2.2.1, hx.2.2.2⟩
    have hlen : (toEntriesV (.obj es)).length < fuel := by
      simpa [toEntriesV, collKind] using hfuel
    have hpipe := okVal_traverse_pipeline fuel (.obj es) f rfl rfl rfl
      hel her hlen
    simp only [traverseB, ofB, JSBox.thunk, JSBox.badValues]
    rw [hpipe]
    simp only [toEntriesV, collKind, fromEntriesV, List.map_map]
    rw [show ((fun kv : JSVal × JSVal => (toPropKey kv.1, kv.2)) ∘
          (fun kv : JSVal × JSVal => (kv.1, elemTr f kv.2)) ∘
          fun kv : String × JSVal => (JSVal.str kv.1, kv.2)) =
        fun kv : String × JSVal => (kv.1, elemTr f kv.2) from rfl]
    rw [mkObjV_nodup _ (by
      rw [List.pairwise_map]
      exact hnd)]
  · -- maps
    intro fuel es f hels hnd hfuel
    refine runV_of_okVal ?_ rfl
    have hel : ∀ kv ∈ toEntriesV (.jmap es),
        asBox kv.2 = none ∧ asProm kv.2 = none := by
      intro kv hkv
      simp only [toEntriesV, collKind] at hkv
      have hx := hels kv hkv
      exact ⟨hx.1, hx.2.1⟩
    have her : ∀ kv ∈ toEntriesV (.jmap es),
        asBox (elemTr f kv.2) = none ∧ asProm (elemTr f kv.2) = none := by
      intro kv hkv
      simp only [toEntriesV, collKind] at hkv
      have hx := hels kv hkv
      exact ⟨hx.2.2.1, hx.2.2.2⟩
    have hlen : (toEntriesV (.jmap es)).length < fuel := by
      simpa [toEntriesV, collKind] using hfuel
    have hpipe := okVal_traverse_pipeline fuel (.jmap es) f rfl rfl rfl
      hel her hlen
    simp only [traverseB, ofB, JSBox.thunk, JSBox.badValues]
    rw [hpipe]
    simp only [toEntriesV, collKind, fromEntriesV]
    rw [mkMapV_nodup _ (by
      rw [List.pairwise_map]
      exact hnd)]
  · -- sets
    intro fuel xs f hels hfuel
    refine runV_of_okVal ?_ rfl
    have hel : ∀ kv ∈ toEntriesV (.jset xs),
        asBox kv.2 = none ∧ asProm kv.2 = none := by
      intro kv hkv
      simp only [toEntriesV, collKind] at hkv
      obtain ⟨x, hx0, rfl⟩ := List.mem_map.mp hkv
      have hx := hels x hx0
      exact ⟨hx.1, hx.2.1⟩
    have her : ∀ kv ∈ toEntriesV (.jset xs),
        asBox (elemTr f kv.2) = none ∧ asProm (elemTr f kv.2) = none := by
      intro kv hkv
      simp only [toEntriesV, collKind] at hkv
      obtain ⟨x, hx0, rfl⟩ := List.mem_map.mp hkv
      have hx := hels x hx0
      exact ⟨hx.2.2.1, hx.2.2.2⟩
    have hlen : (toEntriesV (.jset xs)).length < fuel := by
      simpa [toEntriesV, collKind] using hfuel
    have hpipe := okVal_traverse_pipeline fuel (.jset xs) f rfl rfl rfl
      hel her hlen
    simp only [traverseB, ofB, JSBox.thunk, JSBox.badValues]
    rw [hpipe]
    simp only [toEntriesV, collKind, fromEntriesV, List.map_map]
    rw [show ((fun kv : JSVal × JSVal => kv.2) ∘
          (fun kv : JSVal × JSVal => (kv.1, elemTr f kv.2)) ∘
          fun x : JSVal => (x, x)) = fun x : JSVal => elemTr f x from rfl]
  · -- bare non-collection values
    intro fuel C f hck hCb hCp hbad hrb hrp
    have hCbad : isBadValueC defaultBadValues C = (.ok false, 0) := by
      rw [isBadValueC_default, hbad]
    have hent : toEntriesV C = [(.num 0, C)] := by
      simp [toEntriesV, hck]
    have hel : ∀ kv ∈ toEntriesV C,
        asBox kv.2 = none ∧ asProm kv.2 = none := by
      intro kv hkv
      rw [hent] at hkv
      have : kv = (.num 0, C) := by simpa using hkv
      subst this
      exact ⟨hCb, hCp⟩
    have hetr : elemTr f C = appRes f C := by simp [elemTr, hbad]
    have her : ∀ kv ∈ toEntriesV C,
        asBox (elemTr f kv.2) = none ∧ asProm (elemTr f kv.2) = none := by
      intro kv hkv
      rw [hent] at hkv
      have : kv = (.num 0, C) := by simpa using hkv
      subst this
      rw [hetr]
      exact ⟨hrb, hrp⟩
    have hlen : (toEntriesV C).length < fuel + 2 := by
      rw [hent]
      simp only [List.length_singleton]
      omega
    have hpipe := okVal_traverse_pipeline (fuel + 2) C f hCb hCp hCbad
      hel her hlen
    refine runV_of_okVal ?_ (hetr ▸ hrp)
    simp only [traverseB, ofB, JSBox.thunk, JSBox.badValues]
    rw [show fuel + 6 = (fuel + 2) + 4 from rfl, hpipe, hent]
    simp [fromEntriesV, hck, hetr]

/-- Witness for the amended C1: an array keeps bad elements in place
while transforming the rest, a set collapses duplicate transformed
values, and a bare value is returned bare. -/
theorem traverse_preserves_shape_amended_witness :
    runV (4 + 4) (traverseB (ofB (.arr [.num 1, .null, .num 3])
        defaultBadValues) .addOne) =
      some (.ok (.arr ([JSVal.num 1, .null, .num 3].map (elemTr .addOne)))) ∧
    runV (3 + 4) (traverseB (ofB (.jset [.num 1, .num 2]) defaultBadValues)
        (.constF (.num 0))) =
      some (.ok (.jset (mkSetV
        ([JSVal.num 1, .num 2].map (elemTr (.constF (.num 0))))))) ∧
    runV (0 + 6) (traverseB (ofB (.num 5) defaultBadValues) .addOne) =
      some (.ok (appRes .addOne (.num 5))) :=
  ⟨traverse_preserves_shape_amended.1 4 [.num 1, .null, .num 3] .addOne
      (by intro x hx; fin_cases hx <;> exact ⟨rfl, rfl, rfl, rfl⟩)
      (by decide),
   traverse_preserves_shape_amended.2.2.2.1 3 [.num 1, .num 2]
      (.constF (.num 0))
      (by intro x hx; fin_cases hx <;> exact ⟨rfl, rfl, rfl, rfl⟩)
      (by decide),
   traverse_preserves_shape_amended.2.2.2.2.1 0 (.num 5) .addOne
      rfl rfl rfl rfl rfl rfl⟩
